import Mathlib

/-!
Verification development for the fbsts normalization engine
(`scripts/normalize_epl_fbref.py`).

The raw tables read from SQL and the derived tables written back are
embedded as `Frame`s: a column-name list together with one association
list per row.  Cells are the nullable scalar values the transform
manipulates (`NA`, text, integers, dates).  Every pandas operation the
script uses (column selection, rename, drop, duplicate-column pruning,
per-column replacement, groupby-derived match building, left merge with
suffixing, nullable-integer coercion) is translated into an executable
Lean function; fatal `SystemExit` / `KeyError` / `TypeError` paths are
modelled with `Except String`.
-/

set_option autoImplicit false

namespace Fbsts

/-- A scalar cell of a raw or derived table: missing (`NaN` / `None` /
`NaT` / `pd.NA`), a string, a (signed, unbounded) integer, or a date. -/
inductive Cell where
  | na
  | str (s : String)
  | int (n : Int)
  | date (y m d : Nat)
deriving DecidableEq, Repr

/-- One table row: an association list from column name to cell value. -/
abbrev Row := List (String × Cell)

/-- A table: ordered column names plus rows.  Operations read rows only
through `getCell` (first entry with the requested key, `na` when the key
is absent), matching how a pandas frame is observed column-wise. -/
structure Frame where
  cols : List String
  rows : List Row
deriving DecidableEq, Repr

/-- Value of column `c` in row `r`: the first entry with key `c`, or
`na` when no such entry exists. -/
def getCell : Row → String → Cell
  | [], _ => .na
  | (k, v) :: rest, c => if k = c then v else getCell rest c

/-- Whether row `r` carries an entry for key `c`. -/
def hasKey : Row → String → Bool
  | [], _ => false
  | (k, _) :: rest, c => if k = c then true else hasKey rest c

/-- Whether a cell is the missing-value marker. -/
def isNa : Cell → Bool
  | .na => true
  | _ => false

/-- Keep-first deduplication by a key function, with the keys already
seen threaded through (models pandas keep-first duplicate dropping). -/
def dedupByAux {α κ : Type} [DecidableEq κ] (k : α → κ) : List κ → List α → List α
  | _, [] => []
  | seen, x :: xs =>
    if k x ∈ seen then dedupByAux k seen xs
    else x :: dedupByAux k (k x :: seen) xs

/-- Keep-first deduplication by a key function. -/
def dedupBy {α κ : Type} [DecidableEq κ] (k : α → κ) (l : List α) : List α :=
  dedupByAux k [] l

/-- Rebuild a row so that it carries exactly the given columns, each with
the value `getCell` observes for it. -/
def canonRow (cols : List String) (r : Row) : Row :=
  cols.map (fun c => (c, getCell r c))

/-- Model of `df[keep]`: column projection; `KeyError` when a requested
column is absent. -/
def selectCols (f : Frame) (keep : List String) : Except String Frame :=
  if keep.all (fun c => decide (c ∈ f.cols)) then
    .ok { cols := keep, rows := f.rows.map (canonRow keep) }
  else
    .error "KeyError: column not found"

/-- Model of `df.drop(columns=[c])`. -/
def dropColumn (f : Frame) (c : String) : Frame :=
  let cols := f.cols.filter (fun c2 => decide (c2 ≠ c))
  { cols := cols, rows := f.rows.map (canonRow cols) }

/-- Model of `df.rename(columns)` for a single old/new name pair. -/
def renameColumn (f : Frame) (old new : String) : Frame :=
  { cols := f.cols.map (fun c => if c = old then new else c),
    rows := f.rows.map (fun r =>
      f.cols.map (fun c => (if c = old then new else c, getCell r c))) }

/-- Model of the duplicated-column pruning step
`df.loc[:, negation of df.columns.duplicated()]`: keep only the first
occurrence of every column name. -/
def dedupColumns (f : Frame) : Frame :=
  let cols := dedupBy id f.cols
  { cols := cols, rows := f.rows.map (canonRow cols) }

/-- Values of one column, top to bottom. -/
def colVals (f : Frame) (c : String) : List Cell :=
  f.rows.map (fun r => getCell r c)

/-- Model of `df[c] = series`: overwrite column `c` with the given
values (appending the column when it does not exist yet). -/
def setColVals (f : Frame) (c : String) (vals : List Cell) : Frame :=
  let cols := if c ∈ f.cols then f.cols else f.cols ++ [c]
  { cols := cols,
    rows := List.zipWith
      (fun r v => cols.map (fun c2 => (c2, if c2 = c then v else getCell r c2)))
      f.rows vals }

/-- Map a function over one column in place (used for `Series.replace`). -/
def mapColumn (f : Frame) (c : String) (g : Cell → Cell) : Frame :=
  setColVals f c (f.rows.map (fun r => g (getCell r c)))

/-- `TEAM_NAME_FIXUPS` from the script, as an ordered exact-match table. -/
def teamNameFixups : List (String × String) :=
  [("Newcastle Utd", "Newcastle United"),
   ("Nott\x27ham Forest", "Nottingham Forest"),
   ("Tottenham", "Tottenham Hotspur"),
   ("West Ham", "West Ham United"),
   ("Manchester Utd", "Manchester United")]

/-- Exact-match substitution of a raw team name against the fixup table;
names absent from the table pass through unchanged. -/
def applyFixupsStr (s : String) : String :=
  match teamNameFixups.lookup s with
  | some t => t
  | none => s

/-- Cell-level view of `Series.replace(TEAM_NAME_FIXUPS)`: only string
cells equal to a table key are substituted. -/
def fixCell : Cell → Cell
  | .str s => .str (applyFixupsStr s)
  | c => c

/-- `_apply_team_name_fixes`: substitute canonical team names in each of
the named columns that the frame actually has. -/
def applyTeamNameFixes (f : Frame) (columns : List String) : Frame :=
  columns.foldl (fun acc c => if c ∈ acc.cols then mapColumn acc c fixCell else acc) f

/-- `_first_existing_column`: the first candidate name that is a column
of the frame, or `none`. -/
def firstExistingColumn (f : Frame) : List String → Option String
  | [] => none
  | c :: rest => if c ∈ f.cols then some c else firstExistingColumn f rest

/-- The preparation shared verbatim by `_prepare_schedule` and
`_prepare_player_summary`: require a game/game_id column, prefer `game`
(dropping any pre-existing `game_id` and renaming `game` to `game_id`),
prune duplicate columns, then canonicalize the given team-identity
columns. -/
def prepareGameTable (f : Frame) (errMsg : String) (fixColumns : List String) :
    Except String Frame :=
  if "game" ∉ f.cols ∧ "game_id" ∉ f.cols then
    .error errMsg
  else
    let s1 :=
      if "game" ∈ f.cols then
        renameColumn
          (if "game_id" ∈ f.cols then dropColumn f "game_id" else f)
          "game" "game_id"
      else f
    .ok (applyTeamNameFixes (dedupColumns s1) fixColumns)

/-- `_prepare_schedule`: game-identifier preparation with team and
opponent names canonicalized. -/
def prepareSchedule (schedule : Frame) : Except String Frame :=
  prepareGameTable schedule "Schedule table missing game/game_id column." ["team", "opponent"]

/-- `_prepare_player_summary`: game-identifier preparation with the team
column canonicalized. -/
def preparePlayerSummary (playerSummary : Frame) : Except String Frame :=
  prepareGameTable playerSummary "Player summary missing game/game_id column." ["team"]

/-- Intermediate result of `pd.to_numeric(errors="coerce")` on one cell:
missing, an integer, or a decimal `mantissa / 10 ^ exp`. -/
inductive NumVal where
  | naN
  | intN (n : Int)
  | fracN (mantissa : Int) (exp : Nat)
deriving DecidableEq, Repr

/-- Digit characters to the natural number they denote. -/
def digitsToNat (cs : List Char) : Nat :=
  cs.foldl (fun a c => a * 10 + (c.toNat - 48)) 0

/-- Numeric parse of a string, as `pd.to_numeric` performs it on text
cells: optional surrounding whitespace, optional sign, digits with an
optional decimal point.  Scientific notation and special spellings are
modelled as unparsable (they do not occur in these tables). -/
def parseNumeric (s : String) : Option NumVal :=
  let cs := ((s.toList.dropWhile Char.isWhitespace).reverse.dropWhile Char.isWhitespace).reverse
  let signed : Int × List Char :=
    match cs with
    | '+' :: rest => (1, rest)
    | '-' :: rest => (-1, rest)
    | _ => (1, cs)
  let intPart := signed.2.takeWhile (fun c => decide (c ≠ '.'))
  let rest := signed.2.dropWhile (fun c => decide (c ≠ '.'))
  match rest with
  | [] =>
    if intPart ≠ [] ∧ intPart.all Char.isDigit then
      some (.intN (signed.1 * (digitsToNat intPart : Int)))
    else none
  | '.' :: frac =>
    if (intPart ≠ [] ∨ frac ≠ []) ∧ intPart.all Char.isDigit ∧ frac.all Char.isDigit then
      some (.fracN (signed.1 * (digitsToNat (intPart ++ frac) : Int)) frac.length)
    else none
  | _ => none

/-- `pd.to_numeric(errors="coerce")` on one cell: integers pass through,
strings are parsed (unparsable becomes missing), everything else
coerces to missing. -/
def toNumeric : Cell → NumVal
  | .na => .naN
  | .int n => .intN n
  | .str s => (parseNumeric s).getD .naN
  | .date _ _ _ => .naN

/-- `.astype("Int64")` on one numeric value: missing stays missing,
integers pass through, and a decimal is accepted only when it is an
exact integer - otherwise pandas raises
`TypeError: cannot safely cast non-equivalent float64 to int64`. -/
def astypeInt64 : NumVal → Except String Cell
  | .naN => .ok .na
  | .intN n => .ok (.int n)
  | .fracN m e =>
    if ((10 : Int) ^ e ∣ m) then .ok (.int (m / (10 : Int) ^ e))
    else .error "cannot safely cast non-equivalent float64 to int64"

/-- `_coerce_int` on one cell: numeric parse with null on failure,
then the nullable-integer cast. -/
def coerceCell (c : Cell) : Except String Cell :=
  astypeInt64 (toNumeric c)

/-- `_coerce_int` on a whole column; the first cast failure aborts, as
the series-level `astype` does. -/
def coerceSeries : List Cell → Except String (List Cell)
  | [] => .ok []
  | c :: cs => do
    let v ← coerceCell c
    let vs ← coerceSeries cs
    pure (v :: vs)

/-- Lower-casing of an ASCII letter (the venue tags are ASCII). -/
def lowerChar (c : Char) : Char :=
  if 'A' ≤ c ∧ c ≤ 'Z' then Char.ofNat (c.toNat + 32) else c

/-- Model of `str.lower()` on the ASCII range. -/
def strLower (s : String) : String :=
  ⟨s.toList.map lowerChar⟩

/-- Zero-padded two-digit rendering of a date component. -/
def pad2 (n : Nat) : String :=
  if n < 10 then "0" ++ toString n else toString n

/-- Model of `astype(str)` on one cell (missing renders as pandas
prints it; only string cells occur where this is used). -/
def cellToStr : Cell → String
  | .na => "nan"
  | .str s => s
  | .int n => toString n
  | .date y m d => toString y ++ "-" ++ pad2 m ++ "-" ++ pad2 d

/-- The venue-tag normalization `fillna("").astype(str).str.lower()`
applied to one cell. -/
def venueLower (c : Cell) : String :=
  strLower (cellToStr (match c with | .na => .str "" | c2 => c2))

/-- Model of `pd.to_datetime(errors="coerce")` on one cell: ISO
`YYYY-MM-DD` strings become dates, dates pass through, and every other
representation coerces to `NaT`. -/
def toDatetimeCell : Cell → Cell
  | .str s =>
    match s.toList with
    | [y1, y2, y3, y4, '-', m1, m2, '-', d1, d2] =>
      if [y1, y2, y3, y4, m1, m2, d1, d2].all Char.isDigit then
        .date (digitsToNat [y1, y2, y3, y4]) (digitsToNat [m1, m2]) (digitsToNat [d1, d2])
      else .na
    | _ => .na
  | .date y m d => .date y m d
  | _ => .na

/-- The columns `_build_matches` requires of the prepared schedule. -/
def requiredMatchCols : List String :=
  ["game_id", "team", "opponent", "venue", "date", "league", "season"]

/-- The schedule with its date column parsed
(`schedule["date"] = pd.to_datetime(schedule["date"], errors="coerce")`). -/
def dateConverted (schedule : Frame) : Frame :=
  setColVals schedule "date" ((colVals schedule "date").map toDatetimeCell)

/-- The distinct game identifiers the groupby iterates over: the non-NA
values of `game_id`, one occurrence each (groupby drops NA keys). -/
def matchKeys (f : Frame) : List Cell :=
  dedupBy id ((colVals f "game_id").filter (fun c => !(isNa c)))

/-- The rows of one game-identifier group, in table order. -/
def matchGroup (f : Frame) (g : Cell) : List Row :=
  f.rows.filter (fun r => decide (getCell r "game_id" = g))

/-- Home/away resolution for one group: the first home-tagged row wins;
otherwise the first away-tagged row, with team and opponent swapped;
otherwise the team/opponent pair of the first row of the group. -/
def resolveHomeAway (group : List Row) : Cell × Cell :=
  match group.filter (fun r => decide (venueLower (getCell r "venue") = "home")) with
  | h :: _ => (getCell h "team", getCell h "opponent")
  | [] =>
    match group.filter (fun r => decide (venueLower (getCell r "venue") = "away")) with
    | a :: _ => (getCell a "opponent", getCell a "team")
    | [] => (getCell (group.headD []) "team", getCell (group.headD []) "opponent")

/-- The columns of the derived matches table, before the optional
external-id attachment. -/
def matchesCols : List String :=
  ["game_id", "competition", "season", "match_date", "home_team", "away_team"]

/-- The match record derived from one game-identifier group: identifier,
competition/season/date from the first row of the group, and the
resolved home/away orientation. -/
def mkMatchRow (f : Frame) (g : Cell) : Row :=
  let group := matchGroup f g
  let row := group.headD []
  let ha := resolveHomeAway group
  [("game_id", g), ("competition", getCell row "league"),
   ("season", getCell row "season"), ("match_date", getCell row "date"),
   ("home_team", ha.1), ("away_team", ha.2)]

/-- Whether a column appears on both sides of a merge without being a
key column, so that pandas disambiguates it with suffixes. -/
def mergeOverlap (left right : Frame) (keys : List String) (c : String) : Bool :=
  decide (c ∉ keys) && decide (c ∈ left.cols) && decide (c ∈ right.cols)

/-- Left-side output name of a merged column (`_x` suffix on overlap). -/
def mergeLname (left right : Frame) (keys : List String) (c : String) : String :=
  if mergeOverlap left right keys c then c ++ "_x" else c

/-- Right-side output name of a merged column (`_y` suffix on overlap). -/
def mergeRname (left right : Frame) (keys : List String) (c : String) : String :=
  if mergeOverlap left right keys c then c ++ "_y" else c

/-- The non-key columns the right side contributes to the merge. -/
def mergeRightNonKey (right : Frame) (keys : List String) : List String :=
  right.cols.filter (fun c => decide (c ∉ keys))

/-- The right rows agreeing with a left row on every key column. -/
def mergeRowMatches (right : Frame) (keys : List String) (r : Row) : List Row :=
  right.rows.filter (fun m => keys.all (fun k => decide (getCell r k = getCell m k)))

/-- The left portion of a merged output row. -/
def mergeLpart (left right : Frame) (keys : List String) (r : Row) : Row :=
  left.cols.map (fun c => (mergeLname left right keys c, getCell r c))

/-- The right portion of a merged output row for one matching right row. -/
def mergeRpartOf (left right : Frame) (keys : List String) (m : Row) : Row :=
  (mergeRightNonKey right keys).map (fun c => (mergeRname left right keys c, getCell m c))

/-- The NA-filled right portion used when no right row matches. -/
def mergeRpartNa (left right : Frame) (keys : List String) : Row :=
  (mergeRightNonKey right keys).map (fun c => (mergeRname left right keys c, Cell.na))

/-- All merged output rows produced by one left row. -/
def mergeRowFor (left right : Frame) (keys : List String) (r : Row) : List Row :=
  match mergeRowMatches right keys r with
  | [] => [mergeLpart left right keys r ++ mergeRpartNa left right keys]
  | m :: ms => (m :: ms).map (fun m2 => mergeLpart left right keys r ++ mergeRpartOf left right keys m2)

/-- The single merged output row for one left row, valid when at most
one right row matches it. -/
def mergeRowOne (left right : Frame) (keys : List String) (r : Row) : Row :=
  match mergeRowMatches right keys r with
  | [] => mergeLpart left right keys r ++ mergeRpartNa left right keys
  | m :: _ => mergeLpart left right keys r ++ mergeRpartOf left right keys m

/-- Model of `left.merge(right, on=keys, how="left")`: every left row is
paired with each right row agreeing on the key columns (in right-table
order), or kept once with NA fill when no right row matches; non-key
columns occurring on both sides are suffixed `_x` / `_y`. -/
def mergeLeft (left right : Frame) (keys : List String) : Except String Frame :=
  if keys.all (fun k => decide (k ∈ left.cols)) && keys.all (fun k => decide (k ∈ right.cols)) then
    .ok { cols := left.cols.map (mergeLname left right keys)
                    ++ (mergeRightNonKey right keys).map (mergeRname left right keys),
          rows := left.rows.flatMap (mergeRowFor left right keys) }
  else
    .error "KeyError: merge key column not found"

/-- The match table before the optional external-id attachment: one
derived record per distinct game identifier of the date-converted
schedule. -/
def matchBase (schedule : Frame) : Frame :=
  { cols := matchesCols,
    rows := (matchKeys (dateConverted schedule)).map (mkMatchRow (dateConverted schedule)) }

/-- `_build_matches`: require the structural columns, parse dates, derive
one match record per distinct game identifier, and attach the external
id mapping by a left join when one is present and non-empty. -/
def buildMatches (schedule : Frame) (fbrefMap : Option Frame) : Except String Frame :=
  if requiredMatchCols.all (fun c => decide (c ∈ schedule.cols)) then
    match fbrefMap with
    | some mp =>
      if mp.rows.isEmpty then .ok (matchBase schedule)
      else mergeLeft (matchBase schedule) mp ["game_id"]
    | none => .ok (matchBase schedule)
  else
    .error "Schedule table missing columns"

/-- Insert a cell into a list sorted by string rendering. -/
def insertByStr (x : Cell) : List Cell → List Cell
  | [] => [x]
  | y :: ys => if cellToStr x ≤ cellToStr y then x :: y :: ys else y :: insertByStr x ys

/-- Stable sort by string rendering (model of python `sorted` on the
name strings). -/
def sortByStr (l : List Cell) : List Cell :=
  l.foldr insertByStr []

/-- `_build_teams`: sorted deduplicated union of the team and opponent
columns (KeyError when either column is absent). -/
def buildTeams (schedule : Frame) : Except String Frame :=
  if "team" ∈ schedule.cols ∧ "opponent" ∈ schedule.cols then
    let vals := (colVals schedule "team" ++ colVals schedule "opponent").filter (fun c => !(isNa c))
    .ok { cols := ["name"], rows := (sortByStr (dedupBy id vals)).map (fun v => [("name", v)]) }
  else
    .error "KeyError: team or opponent column not found"

/-- The columns `_build_team_match_stats` requires. -/
def requiredTeamStatCols : List String :=
  ["game_id", "team", "opponent", "venue"]

/-- Set a derived nullable-integer stat column: coerce the resolved
source column, or fill with NA when no alias is present. -/
def addCoercedStat (f : Frame) (outName : String) : Option String → Except String Frame
  | some c => do
    let vals ← coerceSeries (colVals f c)
    pure (setColVals f outName vals)
  | none => pure (setColVals f outName (f.rows.map (fun _ => Cell.na)))

/-- `_build_team_match_stats`: one fact row per schedule row with venue,
result and coerced goals-for/goals-against located through the column
resolver. -/
def buildTeamMatchStats (schedule : Frame) : Except String Frame := do
  let gfCol := firstExistingColumn schedule ["gf", "goals_for", "goals"]
  let gaCol := firstExistingColumn schedule ["ga", "goals_against", "goals_allowed"]
  if requiredTeamStatCols.all (fun c => decide (c ∈ schedule.cols)) then
    let s1 :=
      if "result" ∈ schedule.cols then schedule
      else setColVals schedule "result" (schedule.rows.map (fun _ => Cell.na))
    let s2 ← addCoercedStat s1 "goals_for" gfCol
    let s3 ← addCoercedStat s2 "goals_against" gaCol
    selectCols s3 ["game_id", "team", "opponent", "venue", "result", "goals_for", "goals_against"]
  else
    throw "Team schedule missing columns"

/-- `_build_players`: sorted deduplicated player names. -/
def buildPlayers (playerSummary : Frame) : Except String Frame :=
  if "player" ∈ playerSummary.cols then
    let vals := (colVals playerSummary "player").filter (fun c => !(isNa c))
    .ok { cols := ["name"], rows := (sortByStr (dedupBy id vals)).map (fun v => [("name", v)]) }
  else
    .error "Player summary missing player column."

/-- The deduplicated opponent lookup built in `main`:
`schedule[["game_id","team","opponent"]]` with rows missing either key
dropped, keeping the first row for each (game_id, team) pair. -/
def opponentDfOf (schedule : Frame) : Except String Frame := do
  let sel ← selectCols schedule ["game_id", "team", "opponent"]
  let kept := sel.rows.filter (fun r => !(isNa (getCell r "game_id")) && !(isNa (getCell r "team")))
  pure { cols := sel.cols,
         rows := dedupBy (fun r => (getCell r "game_id", getCell r "team")) kept }

/-- `_build_player_match_stats`: one fact row per player-summary row,
opponent attached by a left join on (game_id, team), and the four stat
columns resolved and coerced. -/
def buildPlayerMatchStats (playerSummary opponentDf : Frame) : Except String Frame := do
  let minutesCol := firstExistingColumn playerSummary ["min", "minutes"]
  let goalsCol := firstExistingColumn playerSummary ["gls", "goals", "performance_gls"]
  let assistsCol := firstExistingColumn playerSummary ["ast", "assists", "performance_ast"]
  let shotsCol := firstExistingColumn playerSummary ["sh", "shots", "performance_sh"]
  if ["game_id", "player", "team"].all (fun c => decide (c ∈ playerSummary.cols)) then
    let merged ← mergeLeft playerSummary opponentDf ["game_id", "team"]
    let s1 ← addCoercedStat merged "minutes" minutesCol
    let s2 ← addCoercedStat s1 "goals" goalsCol
    let s3 ← addCoercedStat s2 "assists" assistsCol
    let s4 ← addCoercedStat s3 "shots" shotsCol
    selectCols s4 ["game_id", "player", "team", "opponent", "minutes", "goals", "assists", "shots"]
  else
    throw "Player summary missing columns"

/-- The (provider token, external id) pairs behind the external
source-id mapping: non-NA pairs, full-row deduplicated
(`drop_duplicates`), then one first-seen id per token
(`groupby("game").first()`). -/
def fbrefPairs (playerSummary : Frame) : List (Cell × Cell) :=
  dedupBy Prod.fst
    (dedupBy id
      ((playerSummary.rows.map (fun r => (getCell r "game", getCell r "game_id"))).filter
        (fun q => !(isNa q.1) && !(isNa q.2))))

/-- The external source-id mapping derived in `main` when the raw player
summary carries both the provider token (`game`) and the canonical
identifier (`game_id`), renamed to (game_id, fbref_match_id). -/
def mkFbrefMap (playerSummary : Frame) : Option Frame :=
  if "game" ∈ playerSummary.cols ∧ "game_id" ∈ playerSummary.cols then
    some { cols := ["game_id", "fbref_match_id"],
           rows := (fbrefPairs playerSummary).map
             (fun q => [("game_id", q.1), ("fbref_match_id", q.2)]) }
  else none

/-- The five derived tables a successful run writes, in the order
`main` writes them. -/
structure Outputs where
  teams : Frame
  matchesTable : Frame
  teamMatchStats : Frame
  players : Frame
  playerMatchStats : Frame
deriving DecidableEq, Repr

/-- The whole normalization run of `main` after the raw tables are
loaded: alignment check, external-id mapping, preparation, the five
builders - and only then the writes.  A structural failure anywhere
yields `error`, so nothing at all is written. -/
def runPipeline (schedule playerSummary : Frame) : Except String Outputs :=
  if "game" ∈ schedule.cols ∧ "game" ∉ playerSummary.cols then
    .error "Player summary missing game column; cannot align with schedule."
  else do
    let fbrefMap := mkFbrefMap playerSummary
    let schedPrepped ← prepareSchedule schedule
    let playerPrepped ← preparePlayerSummary playerSummary
    let matchesTable ← buildMatches schedPrepped fbrefMap
    let teams ← buildTeams schedPrepped
    let teamMatchStats ← buildTeamMatchStats schedPrepped
    let players ← buildPlayers playerPrepped
    let opponentDf ← opponentDfOf schedPrepped
    let playerMatchStats ← buildPlayerMatchStats playerPrepped opponentDf
    pure ⟨teams, matchesTable, teamMatchStats, players, playerMatchStats⟩

/-! ### Generic lemmas about rows, lookup and deduplication -/

/-- Row `i` of a frame (the empty row beyond the end, which `getCell`
reads as all-NA). -/
def rowAt (f : Frame) (i : Nat) : Row :=
  f.rows.getD i []

theorem getCell_map_pairs {α : Type} (key : α → String) (val : α → Cell)
    (l : List α) (c : String) :
    getCell (l.map (fun x => (key x, val x))) c
      = ((l.find? (fun x => decide (key x = c))).map val).getD .na := by
  induction l with
  | nil => rfl
  | cons x xs ih =>
    by_cases h : key x = c
    · simp [getCell, List.find?, h]
    · simp [getCell, List.find?, h, ih]

theorem hasKey_map_pairs {α : Type} (key : α → String) (val : α → Cell)
    (l : List α) (c : String) :
    hasKey (l.map (fun x => (key x, val x))) c
      = (l.find? (fun x => decide (key x = c))).isSome := by
  induction l with
  | nil => rfl
  | cons x xs ih =>
    by_cases h : key x = c
    · simp [hasKey, List.find?, h]
    · simp [hasKey, List.find?, h, ih]

theorem getCell_append (r1 r2 : Row) (c : String) :
    getCell (r1 ++ r2) c = if hasKey r1 c then getCell r1 c else getCell r2 c := by
  induction r1 with
  | nil => simp [getCell, hasKey]
  | cons e rest ih =>
    obtain ⟨k, v⟩ := e
    by_cases h : k = c
    · simp [getCell, hasKey, h]
    · simp [getCell, hasKey, h, ih]

theorem findCongr {α : Type} (p q : α → Bool) (l : List α)
    (h : ∀ x ∈ l, p x = q x) : l.find? p = l.find? q := by
  induction l with
  | nil => rfl
  | cons x xs ih =>
    have hx := h x (List.mem_cons_self x xs)
    by_cases hp : p x = true
    · rw [List.find?_cons_of_pos _ hp, List.find?_cons_of_pos _ (hx ▸ hp)]
    · rw [List.find?_cons_of_neg _ hp, List.find?_cons_of_neg _ (hx ▸ hp)]
      exact ih (fun y hy => h y (List.mem_cons_of_mem x hy))

theorem find_filter {α : Type} (p q : α → Bool) (l : List α) :
    (l.filter q).find? p = l.find? (fun x => q x && p x) := by
  induction l with
  | nil => rfl
  | cons x xs ih =>
    by_cases hq : q x = true
    · by_cases hp : p x = true
      · rw [List.filter_cons_of_pos hq, List.find?_cons_of_pos _ hp,
            List.find?_cons_of_pos _ (by simp [hq, hp])]
      · rw [List.filter_cons_of_pos hq, List.find?_cons_of_neg _ hp,
            List.find?_cons_of_neg _ (by simp [hq, hp]), ih]
    · rw [List.filter_cons_of_neg hq,
          List.find?_cons_of_neg _ (by simp [hq]), ih]

theorem find_eq_self {α : Type} [DecidableEq α] (l : List α) (c : α) :
    l.find? (fun x => decide (x = c)) = if c ∈ l then some c else none := by
  induction l with
  | nil => simp
  | cons x xs ih =>
    by_cases h : x = c
    · subst h
      simp [List.find?]
    · rw [List.find?_cons_of_neg _ (by simp [h]), ih]
      simp [Ne.symm h]

theorem getD_map {α β : Type} (f : α → β) (l : List α) (i : Nat)
    (d : β) (d2 : α) (hi : i < l.length) :
    (l.map f).getD i d = f (l.getD i d2) := by
  induction l generalizing i with
  | nil => simp at hi
  | cons x xs ih =>
    cases i with
    | zero => simp
    | succ j =>
      simp only [List.map_cons, List.getD_cons_succ]
      exact ih j (by simpa using hi)

theorem getD_zipWith {α β γ : Type} (f : α → β → γ) (as : List α) (bs : List β)
    (i : Nat) (d : γ) (da : α) (db : β)
    (ha : i < as.length) (hb : i < bs.length) :
    (List.zipWith f as bs).getD i d = f (as.getD i da) (bs.getD i db) := by
  induction as generalizing bs i with
  | nil => simp at ha
  | cons a as2 ih =>
    cases bs with
    | nil => simp at hb
    | cons b bs2 =>
      cases i with
      | zero => simp
      | succ j =>
        simp only [List.zipWith_cons_cons, List.getD_cons_succ]
        exact ih bs2 j (by simpa using ha) (by simpa using hb)

theorem mem_of_mem_dedupByAux {α κ : Type} [DecidableEq κ] (k : α → κ) :
    ∀ (seen : List κ) (l : List α) (x : α), x ∈ dedupByAux k seen l → x ∈ l := by
  intro seen l
  induction l generalizing seen with
  | nil => intro x hx; simp [dedupByAux] at hx
  | cons y ys ih =>
    intro x hx
    simp only [dedupByAux] at hx
    by_cases h : k y ∈ seen
    · rw [if_pos h] at hx
      exact List.mem_cons_of_mem y (ih seen x hx)
    · rw [if_neg h] at hx
      rcases List.mem_cons.mp hx with h1 | h1
      · exact h1 ▸ List.mem_cons_self y ys
      · exact List.mem_cons_of_mem y (ih (k y :: seen) x h1)

theorem key_not_seen_of_mem_dedupByAux {α κ : Type} [DecidableEq κ] (k : α → κ) :
    ∀ (seen : List κ) (l : List α) (x : α), x ∈ dedupByAux k seen l → k x ∉ seen := by
  intro seen l
  induction l generalizing seen with
  | nil => intro x hx; simp [dedupByAux] at hx
  | cons y ys ih =>
    intro x hx
    simp only [dedupByAux] at hx
    by_cases h : k y ∈ seen
    · rw [if_pos h] at hx
      exact ih seen x hx
    · rw [if_neg h] at hx
      rcases List.mem_cons.mp hx with h1 | h1
      · exact h1 ▸ h
      · intro hc
        exact ih (k y :: seen) x h1 (List.mem_cons_of_mem _ hc)

theorem pairwise_dedupByAux {α κ : Type} [DecidableEq κ] (k : α → κ) :
    ∀ (seen : List κ) (l : List α),
      (dedupByAux k seen l).Pairwise (fun a b => k a ≠ k b) := by
  intro seen l
  induction l generalizing seen with
  | nil => simp [dedupByAux]
  | cons y ys ih =>
    simp only [dedupByAux]
    by_cases h : k y ∈ seen
    · rw [if_pos h]; exact ih seen
    · rw [if_neg h]
      refine List.Pairwise.cons ?_ (ih (k y :: seen))
      intro b hb hkb
      exact key_not_seen_of_mem_dedupByAux k _ _ b hb (hkb ▸ List.mem_cons_self _ _)

theorem pairwise_dedupBy {α κ : Type} [DecidableEq κ] (k : α → κ) (l : List α) :
    (dedupBy k l).Pairwise (fun a b => k a ≠ k b) :=
  pairwise_dedupByAux k [] l

theorem mem_dedupByAux_id {α : Type} [DecidableEq α] :
    ∀ (seen : List α) (l : List α) (x : α),
      x ∈ dedupByAux id seen l ↔ x ∈ l ∧ x ∉ seen := by
  intro seen l
  induction l generalizing seen with
  | nil => intro x; simp [dedupByAux]
  | cons y ys ih =>
    intro x
    simp only [dedupByAux, id]
    by_cases h : y ∈ seen
    · rw [if_pos h, ih]
      constructor
      · rintro ⟨h1, h2⟩
        exact ⟨List.mem_cons_of_mem y h1, h2⟩
      · rintro ⟨h1, h2⟩
        rcases List.mem_cons.mp h1 with rfl | h1
        · exact absurd h h2
        · exact ⟨h1, h2⟩
    · rw [if_neg h]
      constructor
      · intro hx
        rcases List.mem_cons.mp hx with rfl | hx
        · exact ⟨List.mem_cons_self _ _, h⟩
        · have := (ih (y :: seen) x).mp hx
          exact ⟨List.mem_cons_of_mem y this.1,
                 fun hc => this.2 (List.mem_cons_of_mem y hc)⟩
      · rintro ⟨h1, h2⟩
        rcases List.mem_cons.mp h1 with rfl | h1
        · exact List.mem_cons_self _ _
        · by_cases hxy : x = y
          · exact hxy ▸ List.mem_cons_self _ _
          · exact List.mem_cons_of_mem y
              ((ih (y :: seen) x).mpr ⟨h1, by simp [hxy, h2]⟩)

theorem mem_dedupBy_id {α : Type} [DecidableEq α] (l : List α) (x : α) :
    x ∈ dedupBy id l ↔ x ∈ l := by
  rw [dedupBy, mem_dedupByAux_id]
  simp

theorem find_dedupByAux {α κ : Type} [DecidableEq κ] (k : α → κ) (v : κ) :
    ∀ (seen : List κ) (l : List α),
      (dedupByAux k seen l).find? (fun x => decide (k x = v))
        = if v ∈ seen then none else l.find? (fun x => decide (k x = v)) := by
  intro seen l
  induction l generalizing seen with
  | nil => simp [dedupByAux]
  | cons y ys ih =>
    simp only [dedupByAux]
    by_cases hseen : k y ∈ seen
    · rw [if_pos hseen, ih]
      by_cases hv : v ∈ seen
      · simp [hv]
      · have hyv : ¬ (k y = v) := fun hc => hv (hc ▸ hseen)
        rw [if_neg hv, if_neg hv, List.find?_cons_of_neg _ (by simp [hyv])]
    · rw [if_neg hseen]
      by_cases hyv : k y = v
      · rw [List.find?_cons_of_pos _ (by simp [hyv]),
            List.find?_cons_of_pos _ (by simp [hyv])]
        have hv : v ∉ seen := fun hc => hseen (hyv ▸ hc)
        simp [hv]
      · rw [List.find?_cons_of_neg _ (by simp [hyv]),
            List.find?_cons_of_neg _ (by simp [hyv]), ih]
        by_cases hv : v ∈ seen
        · rw [if_pos hv, if_pos (List.mem_cons_of_mem _ hv)]
        · have hne : v ∉ k y :: seen := by
            intro hc
            rcases List.mem_cons.mp hc with h | h
            · exact hyv h.symm
            · exact hv h
          rw [if_neg hv, if_neg hne]

theorem find_dedupBy {α κ : Type} [DecidableEq κ] (k : α → κ) (v : κ) (l : List α) :
    (dedupBy k l).find? (fun x => decide (k x = v))
      = l.find? (fun x => decide (k x = v)) := by
  rw [dedupBy, find_dedupByAux]
  simp

theorem filter_eq_of_pairwise_key {α κ : Type} [DecidableEq κ] (k : α → κ) (v : κ)
    (l : List α) (hp : l.Pairwise (fun a b => k a ≠ k b)) :
    l.filter (fun x => decide (k x = v))
      = ((l.find? (fun x => decide (k x = v))).map (fun x => [x])).getD [] := by
  induction l with
  | nil => rfl
  | cons x xs ih =>
    rcases List.pairwise_cons.mp hp with ⟨hx, hxs⟩
    by_cases hxv : k x = v
    · have hnone : xs.filter (fun y => decide (k y = v)) = [] := by
        refine List.filter_eq_nil_iff.mpr ?_
        intro y hy
        simp only [decide_eq_true_eq]
        exact fun hc => (hx y hy) (hxv.trans hc.symm)
      rw [List.filter_cons_of_pos (by simp [hxv]), hnone,
          List.find?_cons_of_pos _ (by simp [hxv])]
      rfl
    · rw [List.filter_cons_of_neg (by simp [hxv]),
          List.find?_cons_of_neg _ (by simp [hxv])]
      exact ih hxs

theorem flatMap_eq_map_of_singleton {α β : Type} (f : α → List β) (g : α → β)
    (l : List α) (h : ∀ x ∈ l, f x = [g x]) : l.flatMap f = l.map g := by
  induction l with
  | nil => rfl
  | cons x xs ih =>
    rw [List.flatMap_cons, h x (List.mem_cons_self x xs), List.map_cons,
        ih (fun y hy => h y (List.mem_cons_of_mem x hy))]
    rfl

theorem coerceSeries_ok_length (l out : List Cell) (h : coerceSeries l = .ok out) :
    out.length = l.length := by
  induction l generalizing out with
  | nil =>
    simp only [coerceSeries] at h
    cases h
    rfl
  | cons c cs ih =>
    simp only [coerceSeries] at h
    cases hc : coerceCell c with
    | error e =>
      rw [hc] at h
      simp [Bind.bind, Except.bind] at h
    | ok v =>
      rw [hc] at h
      cases hcs : coerceSeries cs with
      | error e =>
        rw [hcs] at h
        simp [Bind.bind, Except.bind, Functor.map, Except.map] at h
      | ok vs =>
        rw [hcs] at h
        simp only [Bind.bind, Except.bind, Functor.map, Except.map,
          Except.ok.injEq] at h
        cases h
        simp [ih vs hcs]

theorem coerceSeries_ok_getD (l out : List Cell) (h : coerceSeries l = .ok out)
    (i : Nat) :
    coerceCell (l.getD i .na) = .ok (out.getD i .na) := by
  induction l generalizing out i with
  | nil =>
    simp only [coerceSeries] at h
    cases h
    simp [coerceCell, toNumeric, astypeInt64]
  | cons c cs ih =>
    simp only [coerceSeries] at h
    cases hc : coerceCell c with
    | error e =>
      rw [hc] at h
      simp [Bind.bind, Except.bind] at h
    | ok v =>
      rw [hc] at h
      cases hcs : coerceSeries cs with
      | error e =>
        rw [hcs] at h
        simp [Bind.bind, Except.bind, Functor.map, Except.map] at h
      | ok vs =>
        rw [hcs] at h
        simp only [Bind.bind, Except.bind, Functor.map, Except.map,
          Except.ok.injEq] at h
        cases h
        cases i with
        | zero => simpa using hc
        | succ j => simpa using ih vs hcs j

/-! ### Lemmas about the individual frame operations -/

theorem getCell_canonRow (cols : List String) (r : Row) (c : String) :
    getCell (canonRow cols r) c = if c ∈ cols then getCell r c else .na := by
  rw [canonRow, getCell_map_pairs (fun x => x) (getCell r) cols c, find_eq_self]
  by_cases h : c ∈ cols <;> simp [h]

theorem rowAt_beyond (f : Frame) (i : Nat) (h : f.rows.length ≤ i) :
    rowAt f i = [] :=
  List.getD_eq_default _ _ h

theorem rowAt_map_rows (cols : List String) (g : Row → Row) (f : Frame) (i : Nat)
    (hi : i < f.rows.length) :
    rowAt { cols := cols, rows := f.rows.map g } i = g (rowAt f i) := by
  simp only [rowAt]
  exact getD_map g f.rows i [] [] hi

theorem selectCols_ok (f : Frame) (keep : List String) (out : Frame)
    (h : selectCols f keep = .ok out) :
    out.cols = keep ∧ out.rows.length = f.rows.length
      ∧ (∀ c ∈ keep, c ∈ f.cols)
      ∧ ∀ i, i < f.rows.length → rowAt out i = canonRow keep (rowAt f i) := by
  rw [selectCols] at h
  by_cases hall : keep.all (fun c => decide (c ∈ f.cols)) = true
  · rw [if_pos hall] at h
    cases h
    refine ⟨rfl, by simp, ?_, ?_⟩
    · intro c hc
      simpa using (List.all_eq_true.mp hall) c hc
    · intro i hi
      exact rowAt_map_rows keep (canonRow keep) f i hi
  · rw [if_neg hall] at h
    cases h

theorem mem_setColVals_cols (f : Frame) (c : String) (vals : List Cell) (c2 : String) :
    c2 ∈ (setColVals f c vals).cols ↔ c2 ∈ f.cols ∨ c2 = c := by
  simp only [setColVals]
  by_cases h : c ∈ f.cols
  · rw [if_pos h]
    constructor
    · exact Or.inl
    · rintro (h2 | rfl)
      · exact h2
      · exact h
  · rw [if_neg h]
    simp [List.mem_append]

theorem setColVals_length (f : Frame) (c : String) (vals : List Cell)
    (hlen : vals.length = f.rows.length) :
    (setColVals f c vals).rows.length = f.rows.length := by
  simp [setColVals, hlen]

theorem getCell_setColVals (f : Frame) (c : String) (vals : List Cell) (c2 : String)
    (i : Nat) (hi : i < f.rows.length) (hlen : vals.length = f.rows.length) :
    getCell (rowAt (setColVals f c vals) i) c2
      = if c2 = c then vals.getD i .na
        else if c2 ∈ f.cols then getCell (rowAt f i) c2 else .na := by
  have hrow : rowAt (setColVals f c vals) i
      = (if c ∈ f.cols then f.cols else f.cols ++ [c]).map
          (fun c3 => (c3, if c3 = c then vals.getD i .na else getCell (rowAt f i) c3)) := by
    simp only [setColVals, rowAt]
    rw [getD_zipWith _ f.rows vals i [] [] .na hi (by rwa [hlen])]
  rw [hrow, getCell_map_pairs (fun x => x)
        (fun c3 => if c3 = c then vals.getD i .na else getCell (rowAt f i) c3) _ c2,
      find_eq_self]
  by_cases hc2 : c2 = c
  · subst hc2
    by_cases h : c2 ∈ f.cols
    · simp [h]
    · simp [h, List.mem_append]
  · by_cases h2 : c2 ∈ f.cols
    · by_cases h : c ∈ f.cols <;> simp [h, h2, hc2, List.mem_append]
    · by_cases h : c ∈ f.cols <;> simp [h, h2, hc2, List.mem_append]

theorem mapColumn_cols (f : Frame) (c : String) (g : Cell → Cell) (h : c ∈ f.cols) :
    (mapColumn f c g).cols = f.cols := by
  simp [mapColumn, setColVals, h]

theorem mapColumn_length (f : Frame) (c : String) (g : Cell → Cell) :
    (mapColumn f c g).rows.length = f.rows.length := by
  simp [mapColumn, setColVals]

theorem getCell_mapColumn (f : Frame) (c : String) (g : Cell → Cell) (c2 : String)
    (i : Nat) (hi : i < f.rows.length) :
    getCell (rowAt (mapColumn f c g) i) c2
      = if c2 = c then g (getCell (rowAt f i) c)
        else if c2 ∈ f.cols then getCell (rowAt f i) c2 else .na := by
  rw [mapColumn, getCell_setColVals f c _ c2 i hi (by simp)]
  have : (f.rows.map (fun r => g (getCell r c))).getD i .na = g (getCell (rowAt f i) c) := by
    rw [rowAt]
    exact getD_map _ f.rows i _ [] hi
  rw [this]

theorem mem_dropColumn_cols (f : Frame) (c : String) (c2 : String) :
    c2 ∈ (dropColumn f c).cols ↔ c2 ∈ f.cols ∧ c2 ≠ c := by
  simp [dropColumn, List.mem_filter]

theorem dropColumn_length (f : Frame) (c : String) :
    (dropColumn f c).rows.length = f.rows.length := by
  simp [dropColumn]

theorem getCell_dropColumn (f : Frame) (c : String) (c2 : String) (i : Nat)
    (hi : i < f.rows.length) :
    getCell (rowAt (dropColumn f c) i) c2
      = if c2 ∈ f.cols ∧ c2 ≠ c then getCell (rowAt f i) c2 else .na := by
  rw [dropColumn, rowAt_map_rows _ _ _ _ hi, getCell_canonRow]
  by_cases h : c2 ∈ f.cols ∧ c2 ≠ c
  · rw [if_pos (List.mem_filter.mpr ⟨h.1, by simp [h.2]⟩), if_pos h]
  · rw [if_neg (fun hc => h (by simpa [List.mem_filter] using hc)), if_neg h]

theorem dedupColumns_cols (f : Frame) :
    (dedupColumns f).cols = dedupBy id f.cols := rfl

theorem mem_dedupColumns_cols (f : Frame) (c : String) :
    c ∈ (dedupColumns f).cols ↔ c ∈ f.cols :=
  mem_dedupBy_id f.cols c

theorem dedupColumns_length (f : Frame) :
    (dedupColumns f).rows.length = f.rows.length := by
  simp [dedupColumns]

theorem getCell_dedupColumns (f : Frame) (c : String) (i : Nat)
    (hi : i < f.rows.length) :
    getCell (rowAt (dedupColumns f) i) c
      = if c ∈ f.cols then getCell (rowAt f i) c else .na := by
  rw [dedupColumns, rowAt_map_rows _ _ _ _ hi, getCell_canonRow]
  by_cases h : c ∈ f.cols
  · rw [if_pos ((mem_dedupBy_id f.cols c).mpr h), if_pos h]
  · rw [if_neg (fun hc => h ((mem_dedupBy_id f.cols c).mp hc)), if_neg h]

theorem renameColumn_length (f : Frame) (old new : String) :
    (renameColumn f old new).rows.length = f.rows.length := by
  simp [renameColumn]

theorem mem_renameColumn_cols (f : Frame) (old new c2 : String) :
    c2 ∈ (renameColumn f old new).cols
      ↔ ∃ c ∈ f.cols, (if c = old then new else c) = c2 := by
  simp [renameColumn, List.mem_map]

theorem getCell_renameColumn (f : Frame) (old new c2 : String) (i : Nat)
    (hi : i < f.rows.length) :
    getCell (rowAt (renameColumn f old new) i) c2
      = ((f.cols.find? (fun c => decide ((if c = old then new else c) = c2))).map
          (getCell (rowAt f i))).getD .na := by
  have hrow : rowAt (renameColumn f old new) i
      = f.cols.map (fun c => (if c = old then new else c, getCell (rowAt f i) c)) := by
    simp only [renameColumn, rowAt]
    exact getD_map _ f.rows i [] [] hi
  rw [hrow, getCell_map_pairs (fun c => if c = old then new else c) (getCell (rowAt f i))]

/-! ### Lemmas about the preparation stage -/

theorem applyTeamNameFixes_cons (f : Frame) (c : String) (cs : List String) :
    applyTeamNameFixes f (c :: cs)
      = applyTeamNameFixes (if c ∈ f.cols then mapColumn f c fixCell else f) cs := by
  simp [applyTeamNameFixes]

theorem applyTeamNameFixes_cols (cs : List String) (f : Frame) :
    (applyTeamNameFixes f cs).cols = f.cols := by
  induction cs generalizing f with
  | nil => rfl
  | cons c cs ih =>
    rw [applyTeamNameFixes_cons]
    by_cases h : c ∈ f.cols
    · rw [if_pos h, ih, mapColumn_cols f c fixCell h]
    · rw [if_neg h, ih]

theorem applyTeamNameFixes_length (cs : List String) (f : Frame) :
    (applyTeamNameFixes f cs).rows.length = f.rows.length := by
  induction cs generalizing f with
  | nil => rfl
  | cons c cs ih =>
    rw [applyTeamNameFixes_cons]
    by_cases h : c ∈ f.cols
    · rw [if_pos h, ih, mapColumn_length]
    · rw [if_neg h, ih]

theorem getCell_applyTeamNameFixes (cs : List String) (hnd : cs.Nodup) (f : Frame)
    (c2 : String) (hc2 : c2 ∈ f.cols) (i : Nat) (hi : i < f.rows.length) :
    getCell (rowAt (applyTeamNameFixes f cs) i) c2
      = if c2 ∈ cs then fixCell (getCell (rowAt f i) c2)
        else getCell (rowAt f i) c2 := by
  induction cs generalizing f with
  | nil => simp [applyTeamNameFixes]
  | cons c cs ih =>
    rcases List.nodup_cons.mp hnd with ⟨hcn, hnd2⟩
    rw [applyTeamNameFixes_cons]
    by_cases h : c ∈ f.cols
    · rw [if_pos h]
      have hstep := ih hnd2 (mapColumn f c fixCell)
        ((mapColumn_cols f c fixCell h).symm ▸ hc2)
        ((mapColumn_length f c fixCell).symm ▸ hi)
      rw [hstep, getCell_mapColumn f c fixCell c2 i hi]
      by_cases hcc : c2 = c
      · subst hcc
        rw [if_pos rfl, if_neg hcn, if_pos (List.mem_cons_self _ _)]
      · rw [if_neg hcc, if_pos hc2]
        by_cases hmem : c2 ∈ cs
        · rw [if_pos hmem, if_pos (List.mem_cons_of_mem _ hmem)]
        · rw [if_neg hmem, if_neg (by
            intro hc3
            rcases List.mem_cons.mp hc3 with h4 | h4
            · exact hcc h4
            · exact hmem h4)]
    · rw [if_neg h]
      have hcc : c2 ≠ c := fun hc3 => h (hc3 ▸ hc2)
      rw [ih hnd2 f hc2 hi]
      by_cases hmem : c2 ∈ cs
      · rw [if_pos hmem, if_pos (List.mem_cons_of_mem _ hmem)]
      · rw [if_neg hmem, if_neg (by
          intro hc3
          rcases List.mem_cons.mp hc3 with h4 | h4
          · exact hcc h4
          · exact hmem h4)]

theorem prepareGameTable_error (f : Frame) (msg : String) (cs : List String)
    (h1 : "game" ∉ f.cols) (h2 : "game_id" ∉ f.cols) :
    prepareGameTable f msg cs = .error msg := by
  rw [prepareGameTable, if_pos ⟨h1, h2⟩]

/-- The intermediate frame of `prepareGameTable` after the game-id
drop/rename branch, before duplicate-column pruning. -/
def prepMid (f : Frame) : Frame :=
  if "game" ∈ f.cols then
    renameColumn (if "game_id" ∈ f.cols then dropColumn f "game_id" else f) "game" "game_id"
  else f

theorem prepareGameTable_ok (f : Frame) (msg : String) (cs : List String)
    (h : ¬ ("game" ∉ f.cols ∧ "game_id" ∉ f.cols)) :
    prepareGameTable f msg cs = .ok (applyTeamNameFixes (dedupColumns (prepMid f)) cs) := by
  rw [prepareGameTable, if_neg h, prepMid]

theorem prepMid_length (f : Frame) : (prepMid f).rows.length = f.rows.length := by
  rw [prepMid]
  by_cases hg : "game" ∈ f.cols
  · rw [if_pos hg, renameColumn_length]
    by_cases hgi : "game_id" ∈ f.cols
    · rw [if_pos hgi, dropColumn_length]
    · rw [if_neg hgi]
  · rw [if_neg hg]

theorem mem_prepMid_cols (f : Frame) (c2 : String) (hne1 : c2 ≠ "game")
    (hne2 : c2 ≠ "game_id") : c2 ∈ (prepMid f).cols ↔ c2 ∈ f.cols := by
  rw [prepMid]
  by_cases hg : "game" ∈ f.cols
  · rw [if_pos hg]
    by_cases hgi : "game_id" ∈ f.cols
    · rw [if_pos hgi, mem_renameColumn_cols]
      constructor
      · rintro ⟨c, hc, hcc⟩
        by_cases hcg : c = "game"
        · rw [if_pos hcg] at hcc
          exact absurd hcc.symm hne2
        · rw [if_neg hcg] at hcc
          exact hcc ▸ ((mem_dropColumn_cols f "game_id" c).mp hc).1
      · intro hc
        refine ⟨c2, (mem_dropColumn_cols f "game_id" c2).mpr ⟨hc, hne2⟩, ?_⟩
        rw [if_neg hne1]
    · rw [if_neg hgi, mem_renameColumn_cols]
      constructor
      · rintro ⟨c, hc, hcc⟩
        by_cases hcg : c = "game"
        · rw [if_pos hcg] at hcc
          exact absurd hcc.symm hne2
        · rw [if_neg hcg] at hcc
          exact hcc ▸ hc
      · intro hc
        refine ⟨c2, hc, ?_⟩
        rw [if_neg hne1]
  · rw [if_neg hg]

theorem gameId_mem_prepMid_cols (f : Frame)
    (h : ¬ ("game" ∉ f.cols ∧ "game_id" ∉ f.cols)) :
    "game_id" ∈ (prepMid f).cols := by
  rw [prepMid]
  by_cases hg : "game" ∈ f.cols
  · rw [if_pos hg, mem_renameColumn_cols]
    by_cases hgi : "game_id" ∈ f.cols
    · rw [if_pos hgi]
      exact ⟨"game", (mem_dropColumn_cols f "game_id" "game").mpr
        ⟨hg, by decide⟩, by rfl⟩
    · rw [if_neg hgi]
      exact ⟨"game", hg, by rfl⟩
  · rw [if_neg hg]
    rcases not_and_or.mp h with h1 | h2
    · exact absurd (not_not.mp h1) hg
    · exact not_not.mp h2

theorem getCell_prepMid_gameId (f : Frame) (i : Nat) (hi : i < f.rows.length) :
    getCell (rowAt (prepMid f) i) "game_id"
      = if "game" ∈ f.cols then getCell (rowAt f i) "game"
        else getCell (rowAt f i) "game_id" := by
  rw [prepMid]
  by_cases hg : "game" ∈ f.cols
  · rw [if_pos hg, if_pos hg]
    by_cases hgi : "game_id" ∈ f.cols
    · rw [if_pos hgi,
          getCell_renameColumn _ "game" "game_id" "game_id" i (by rwa [dropColumn_length]),
          findCongr _ (fun c => decide (c = "game")) _ (by
            intro x hx
            have hxne : x ≠ "game_id" := ((mem_dropColumn_cols f "game_id" x).mp hx).2
            by_cases hxg : x = "game"
            · simp [hxg]
            · simp [hxg, hxne]),
          find_eq_self]
      rw [if_pos ((mem_dropColumn_cols f "game_id" "game").mpr ⟨hg, by decide⟩)]
      simp only [Option.map_some', Option.getD_some]
      rw [getCell_dropColumn f "game_id" "game" i hi, if_pos ⟨hg, by decide⟩]
    · rw [if_neg hgi,
          getCell_renameColumn _ "game" "game_id" "game_id" i hi,
          findCongr _ (fun c => decide (c = "game")) _ (by
            intro x hx
            have hxne : x ≠ "game_id" := fun hc => hgi (hc ▸ hx)
            by_cases hxg : x = "game"
            · simp [hxg]
            · simp [hxg, hxne]),
          find_eq_self, if_pos hg]
      rfl
  · rw [if_neg hg, if_neg hg]

theorem getCell_prepMid_other (f : Frame) (c2 : String) (hne1 : c2 ≠ "game")
    (hne2 : c2 ≠ "game_id") (hc2 : c2 ∈ f.cols) (i : Nat) (hi : i < f.rows.length) :
    getCell (rowAt (prepMid f) i) c2 = getCell (rowAt f i) c2 := by
  rw [prepMid]
  by_cases hg : "game" ∈ f.cols
  · rw [if_pos hg]
    by_cases hgi : "game_id" ∈ f.cols
    · rw [if_pos hgi,
          getCell_renameColumn _ "game" "game_id" c2 i (by rwa [dropColumn_length]),
          findCongr _ (fun c => decide (c = c2)) _ (by
            intro x hx
            by_cases hxg : x = "game"
            · simp [hxg, Ne.symm hne1, Ne.symm hne2]
            · simp [hxg]),
          find_eq_self]
      rw [if_pos ((mem_dropColumn_cols f "game_id" c2).mpr ⟨hc2, hne2⟩)]
      simp only [Option.map_some', Option.getD_some]
      rw [getCell_dropColumn f "game_id" c2 i hi, if_pos ⟨hc2, hne2⟩]
    · rw [if_neg hgi,
          getCell_renameColumn _ "game" "game_id" c2 i hi,
          findCongr _ (fun c => decide (c = c2)) _ (by
            intro x hx
            by_cases hxg : x = "game"
            · simp [hxg, Ne.symm hne1, Ne.symm hne2]
            · simp [hxg]),
          find_eq_self, if_pos hc2]
      rfl
  · rw [if_neg hg]

theorem prepareGameTable_ok_eq (f : Frame) (msg : String) (cs : List String)
    (s2 : Frame) (h : prepareGameTable f msg cs = .ok s2) :
    s2 = applyTeamNameFixes (dedupColumns (prepMid f)) cs
      ∧ ¬ ("game" ∉ f.cols ∧ "game_id" ∉ f.cols) := by
  by_cases hg : "game" ∉ f.cols ∧ "game_id" ∉ f.cols
  · rw [prepareGameTable_error f msg cs hg.1 hg.2] at h
    cases h
  · rw [prepareGameTable_ok f msg cs hg] at h
    cases h
    exact ⟨rfl, hg⟩

theorem prepare_length (f : Frame) (msg : String) (cs : List String) (s2 : Frame)
    (h : prepareGameTable f msg cs = .ok s2) :
    s2.rows.length = f.rows.length := by
  rw [(prepareGameTable_ok_eq f msg cs s2 h).1, applyTeamNameFixes_length,
      dedupColumns_length, prepMid_length]

theorem prepare_mem_cols (f : Frame) (msg : String) (cs : List String) (s2 : Frame)
    (h : prepareGameTable f msg cs = .ok s2) (c2 : String) (hne1 : c2 ≠ "game")
    (hne2 : c2 ≠ "game_id") : c2 ∈ s2.cols ↔ c2 ∈ f.cols := by
  rw [(prepareGameTable_ok_eq f msg cs s2 h).1, applyTeamNameFixes_cols,
      dedupColumns_cols, mem_dedupBy_id]
  exact mem_prepMid_cols f c2 hne1 hne2

theorem prepare_gameId_mem (f : Frame) (msg : String) (cs : List String) (s2 : Frame)
    (h : prepareGameTable f msg cs = .ok s2) : "game_id" ∈ s2.cols := by
  rw [(prepareGameTable_ok_eq f msg cs s2 h).1, applyTeamNameFixes_cols,
      dedupColumns_cols, mem_dedupBy_id]
  exact gameId_mem_prepMid_cols f (prepareGameTable_ok_eq f msg cs s2 h).2

theorem prepare_getCell_gameId (f : Frame) (msg : String) (cs : List String)
    (s2 : Frame) (h : prepareGameTable f msg cs = .ok s2) (hnd : cs.Nodup)
    (hcs : "game_id" ∉ cs) (i : Nat) (hi : i < f.rows.length) :
    getCell (rowAt s2 i) "game_id"
      = if "game" ∈ f.cols then getCell (rowAt f i) "game"
        else getCell (rowAt f i) "game_id" := by
  rw [(prepareGameTable_ok_eq f msg cs s2 h).1]
  rw [getCell_applyTeamNameFixes cs hnd _ "game_id"
        (by
          rw [dedupColumns_cols, mem_dedupBy_id]
          exact gameId_mem_prepMid_cols f (prepareGameTable_ok_eq f msg cs s2 h).2)
        i (by rw [dedupColumns_length, prepMid_length]; exact hi),
      if_neg hcs,
      getCell_dedupColumns _ _ i (by rw [prepMid_length]; exact hi),
      if_pos (gameId_mem_prepMid_cols f (prepareGameTable_ok_eq f msg cs s2 h).2),
      getCell_prepMid_gameId f i hi]

theorem prepare_getCell_fixed (f : Frame) (msg : String) (cs : List String)
    (s2 : Frame) (h : prepareGameTable f msg cs = .ok s2) (hnd : cs.Nodup)
    (c2 : String) (hmem : c2 ∈ cs) (hne1 : c2 ≠ "game") (hne2 : c2 ≠ "game_id")
    (hc2 : c2 ∈ f.cols) (i : Nat) (hi : i < f.rows.length) :
    getCell (rowAt s2 i) c2 = fixCell (getCell (rowAt f i) c2) := by
  rw [(prepareGameTable_ok_eq f msg cs s2 h).1]
  rw [getCell_applyTeamNameFixes cs hnd _ c2
        (by
          rw [dedupColumns_cols, mem_dedupBy_id]
          exact (mem_prepMid_cols f c2 hne1 hne2).mpr hc2)
        i (by rw [dedupColumns_length, prepMid_length]; exact hi),
      if_pos hmem,
      getCell_dedupColumns _ _ i (by rw [prepMid_length]; exact hi),
      if_pos ((mem_prepMid_cols f c2 hne1 hne2).mpr hc2),
      getCell_prepMid_other f c2 hne1 hne2 hc2 i hi]

theorem prepare_gameId_count (f : Frame) (msg : String) (cs : List String)
    (s2 : Frame) (h : prepareGameTable f msg cs = .ok s2) :
    s2.cols.count "game_id" = 1 := by
  rw [(prepareGameTable_ok_eq f msg cs s2 h).1, applyTeamNameFixes_cols,
      dedupColumns_cols]
  have hnd : (dedupBy id (prepMid f).cols).Nodup := by
    have := pairwise_dedupBy id (prepMid f).cols
    exact this.imp (fun hab => hab)
  exact List.count_eq_one_of_mem hnd
    ((mem_dedupBy_id _ _).mpr
      (gameId_mem_prepMid_cols f (prepareGameTable_ok_eq f msg cs s2 h).2))

/-- The game identifiers of a raw table as the preparation step reads
them: the `game` column when it exists, else the `game_id` column. -/
def gameIdValuesRaw (f : Frame) : List Cell :=
  if "game" ∈ f.cols then colVals f "game" else colVals f "game_id"

theorem colVals_getD (f : Frame) (c : String) (i : Nat) (hi : i < f.rows.length) :
    (colVals f c).getD i .na = getCell (rowAt f i) c := by
  rw [colVals, rowAt]
  exact getD_map _ f.rows i _ [] hi

theorem colVals_length (f : Frame) (c : String) :
    (colVals f c).length = f.rows.length := by
  simp [colVals]

theorem prepare_colVals_gameId (f : Frame) (msg : String) (cs : List String)
    (s2 : Frame) (h : prepareGameTable f msg cs = .ok s2) (hnd : cs.Nodup)
    (hcs : "game_id" ∉ cs) :
    colVals s2 "game_id" = gameIdValuesRaw f := by
  have hlen : (colVals s2 "game_id").length = (gameIdValuesRaw f).length := by
    rw [colVals_length, prepare_length f msg cs s2 h, gameIdValuesRaw]
    by_cases hg : "game" ∈ f.cols <;> simp [hg, colVals_length]
  refine List.ext_getElem? ?_
  intro i
  by_cases hi : i < f.rows.length
  · have h1 : (colVals s2 "game_id").getD i .na = (gameIdValuesRaw f).getD i .na := by
      rw [colVals_getD s2 "game_id" i (by rw [prepare_length f msg cs s2 h]; exact hi),
          prepare_getCell_gameId f msg cs s2 h hnd hcs i hi, gameIdValuesRaw]
      by_cases hg : "game" ∈ f.cols
      · rw [if_pos hg, if_pos hg, colVals_getD f "game" i hi]
      · rw [if_neg hg, if_neg hg, colVals_getD f "game_id" i hi]
    have hi1 : i < (colVals s2 "game_id").length := by
      rw [colVals_length, prepare_length f msg cs s2 h]; exact hi
    have hi2 : i < (gameIdValuesRaw f).length := by rw [← hlen]; exact hi1
    rw [List.getElem?_eq_getElem hi1, List.getElem?_eq_getElem hi2]
    have e1 := List.getD_eq_getElem (colVals s2 "game_id") .na hi1
    have e2 := List.getD_eq_getElem (gameIdValuesRaw f) .na hi2
    rw [← e1, ← e2, h1]
  · have hi1 : ¬ i < (colVals s2 "game_id").length := by
      rw [colVals_length, prepare_length f msg cs s2 h]; exact hi
    have hi2 : ¬ i < (gameIdValuesRaw f).length := by rw [← hlen]; exact hi1
    rw [List.getElem?_eq_none (by omega), List.getElem?_eq_none (by omega)]

/-! ### Lemmas about the left merge -/

theorem mergeLeft_ok (left right : Frame) (keys : List String) (out : Frame)
    (h : mergeLeft left right keys = .ok out) :
    out.cols = left.cols.map (mergeLname left right keys)
        ++ (mergeRightNonKey right keys).map (mergeRname left right keys)
      ∧ out.rows = left.rows.flatMap (mergeRowFor left right keys) := by
  rw [mergeLeft] at h
  by_cases hg : (keys.all (fun k => decide (k ∈ left.cols))
      && keys.all (fun k => decide (k ∈ right.cols))) = true
  · rw [if_pos hg] at h
    cases h
    exact ⟨rfl, rfl⟩
  · rw [if_neg hg] at h
    cases h

theorem mergeRowFor_eq_one (left right : Frame) (keys : List String) (r : Row)
    (h : (mergeRowMatches right keys r).length ≤ 1) :
    mergeRowFor left right keys r = [mergeRowOne left right keys r] := by
  rw [mergeRowFor, mergeRowOne]
  cases hm : mergeRowMatches right keys r with
  | nil => rfl
  | cons m ms =>
    cases ms with
    | nil => rfl
    | cons m2 ms2 =>
      rw [hm] at h
      simp at h

theorem mergeLeft_rows_map (left right : Frame) (keys : List String) (out : Frame)
    (h : mergeLeft left right keys = .ok out)
    (hu : ∀ r, (mergeRowMatches right keys r).length ≤ 1) :
    out.rows = left.rows.map (mergeRowOne left right keys) := by
  rw [(mergeLeft_ok left right keys out h).2]
  exact flatMap_eq_map_of_singleton _ _ _
    (fun r _ => mergeRowFor_eq_one left right keys r (hu r))

theorem getCell_mergeRowOne_left (left right : Frame) (keys : List String) (r : Row)
    (c : String) (hc : c ∈ left.cols)
    (hall : ∀ c2 ∈ left.cols, mergeLname left right keys c2 = c2) :
    getCell (mergeRowOne left right keys r) c = getCell r c := by
  have hfind : left.cols.find? (fun c2 => decide (mergeLname left right keys c2 = c))
      = some c := by
    rw [findCongr _ (fun c2 => decide (c2 = c)) _ (by
          intro x hx
          rw [hall x hx]),
        find_eq_self, if_pos hc]
  have hl : getCell (mergeLpart left right keys r) c = getCell r c := by
    rw [mergeLpart,
        getCell_map_pairs (mergeLname left right keys) (getCell r) left.cols c, hfind]
    rfl
  have hk : hasKey (mergeLpart left right keys r) c = true := by
    rw [mergeLpart,
        hasKey_map_pairs (mergeLname left right keys) (getCell r) left.cols c, hfind]
    rfl
  rw [mergeRowOne]
  cases hm : mergeRowMatches right keys r with
  | nil => rw [getCell_append, if_pos hk, hl]
  | cons m ms => rw [getCell_append, if_pos hk, hl]

theorem getCell_mergeRowOne_right (left right : Frame) (keys : List String) (r : Row)
    (c : String) (hnone : ∀ c2 ∈ left.cols, mergeLname left right keys c2 ≠ c) :
    getCell (mergeRowOne left right keys r) c
      = match mergeRowMatches right keys r with
        | [] => getCell (mergeRpartNa left right keys) c
        | m :: _ => getCell (mergeRpartOf left right keys m) c := by
  have hfind : left.cols.find? (fun c2 => decide (mergeLname left right keys c2 = c))
      = none := by
    rw [List.find?_eq_none]
    intro x hx
    simp [hnone x hx]
  have hk : hasKey (mergeLpart left right keys r) c = false := by
    rw [mergeLpart,
        hasKey_map_pairs (mergeLname left right keys) (getCell r) left.cols c, hfind]
    rfl
  rw [mergeRowOne]
  cases hm : mergeRowMatches right keys r with
  | nil => rw [getCell_append, if_neg (by rw [hk]; simp)]
  | cons m ms => rw [getCell_append, if_neg (by rw [hk]; simp)]

/-! ### Lemmas about the derived match table -/

theorem getCell_mkMatchRow_gameId (f : Frame) (g : Cell) :
    getCell (mkMatchRow f g) "game_id" = g := rfl

theorem getCell_mkMatchRow_home (f : Frame) (g : Cell) :
    getCell (mkMatchRow f g) "home_team" = (resolveHomeAway (matchGroup f g)).1 := rfl

theorem getCell_mkMatchRow_away (f : Frame) (g : Cell) :
    getCell (mkMatchRow f g) "away_team" = (resolveHomeAway (matchGroup f g)).2 := rfl

theorem mem_matchKeys (f : Frame) (g : Cell) :
    g ∈ matchKeys f ↔ g ∈ colVals f "game_id" ∧ isNa g = false := by
  rw [matchKeys, mem_dedupBy_id, List.mem_filter]
  simp

theorem matchKeys_pairwise (f : Frame) :
    (matchKeys f).Pairwise (fun a b => a ≠ b) :=
  (pairwise_dedupBy id _).imp (fun h => h)

theorem filter_of_map {α β : Type} (f : α → β) (p : β → Bool) (l : List α) :
    (l.map f).filter p = (l.filter (fun x => p (f x))).map f := by
  induction l with
  | nil => rfl
  | cons x xs ih =>
    by_cases h : p (f x) = true
    · simp [List.filter_cons, h, ih]
    · simp [List.filter_cons, h, ih]

theorem filter_eq_self_of_pairwise {α : Type} [DecidableEq α] (l : List α)
    (hp : l.Pairwise (fun a b => a ≠ b)) (g : α) (hg : g ∈ l) :
    l.filter (fun x => decide (x = g)) = [g] := by
  induction l with
  | nil => cases hg
  | cons x xs ih =>
    rcases List.pairwise_cons.mp hp with ⟨hx, hxs⟩
    by_cases hxg : x = g
    · subst hxg
      have hnone : xs.filter (fun y => decide (y = x)) = [] := by
        refine List.filter_eq_nil_iff.mpr ?_
        intro y hy
        simp only [decide_eq_true_eq]
        exact fun hc => (hx y hy) hc.symm
      rw [List.filter_cons_of_pos (by simp), hnone]
    · rcases List.mem_cons.mp hg with rfl | hg2
      · exact absurd rfl hxg
      · rw [List.filter_cons_of_neg (by simp [hxg]), ih hxs hg2]

theorem matchBase_filter (schedule : Frame) (g : Cell)
    (hg : g ∈ matchKeys (dateConverted schedule)) :
    (matchBase schedule).rows.filter (fun r => decide (getCell r "game_id" = g))
      = [mkMatchRow (dateConverted schedule) g] := by
  have h1 : (matchBase schedule).rows.filter (fun r => decide (getCell r "game_id" = g))
      = ((matchKeys (dateConverted schedule)).filter (fun k => decide (k = g))).map
          (mkMatchRow (dateConverted schedule)) := by
    rw [matchBase]
    exact filter_of_map _ _ _
  rw [h1, filter_eq_self_of_pairwise _ (matchKeys_pairwise (dateConverted schedule)) g hg]
  rfl

/-! ### Lemmas about the date conversion step -/

/-- The column list of the date-converted schedule. -/
def dateRowCols (f : Frame) : List String :=
  if "date" ∈ f.cols then f.cols else f.cols ++ ["date"]

/-- One row of the date-converted schedule. -/
def dateRow (cols : List String) (r : Row) : Row :=
  cols.map (fun c2 => (c2, if c2 = "date" then toDatetimeCell (getCell r "date")
                           else getCell r c2))

theorem zipWith_self_map {α β γ : Type} (f : α → β → γ) (g : α → β) (l : List α) :
    List.zipWith f l (l.map g) = l.map (fun x => f x (g x)) := by
  induction l with
  | nil => rfl
  | cons x xs ih => simp [ih]

theorem dateConverted_eq (f : Frame) :
    dateConverted f
      = { cols := dateRowCols f, rows := f.rows.map (dateRow (dateRowCols f)) } := by
  rw [dateConverted, setColVals, dateRowCols]
  have hvals : (colVals f "date").map toDatetimeCell
      = f.rows.map (fun r => toDatetimeCell (getCell r "date")) := by
    rw [colVals, List.map_map]
    rfl
  rw [hvals, zipWith_self_map]
  rfl

theorem mem_dateRowCols (f : Frame) (c : String) :
    c ∈ dateRowCols f ↔ c ∈ f.cols ∨ c = "date" := by
  rw [dateRowCols]
  by_cases h : "date" ∈ f.cols
  · rw [if_pos h]
    constructor
    · exact Or.inl
    · rintro (h2 | rfl)
      · exact h2
      · exact h
  · rw [if_neg h]
    simp [List.mem_append]

theorem getCell_dateRow (cols : List String) (r : Row) (c : String) :
    getCell (dateRow cols r) c
      = if c ∈ cols then
          (if c = "date" then toDatetimeCell (getCell r "date") else getCell r c)
        else .na := by
  rw [dateRow, getCell_map_pairs (fun x => x)
        (fun c2 => if c2 = "date" then toDatetimeCell (getCell r "date") else getCell r c2)
        cols c,
      find_eq_self]
  by_cases h : c ∈ cols <;> simp [h]

theorem getCell_dateRow_other (f : Frame) (r : Row) (c : String)
    (hc : c ∈ f.cols) (hne : c ≠ "date") :
    getCell (dateRow (dateRowCols f) r) c = getCell r c := by
  rw [getCell_dateRow, if_pos ((mem_dateRowCols f c).mpr (Or.inl hc)), if_neg hne]

theorem matchGroup_dateConverted (f : Frame) (g : Cell) (hgid : "game_id" ∈ f.cols) :
    matchGroup (dateConverted f) g
      = (matchGroup f g).map (dateRow (dateRowCols f)) := by
  rw [matchGroup, matchGroup, dateConverted_eq]
  have h1 : (f.rows.map (dateRow (dateRowCols f))).filter
        (fun r => decide (getCell r "game_id" = g))
      = (f.rows.filter
          (fun r => decide (getCell (dateRow (dateRowCols f) r) "game_id" = g))).map
          (dateRow (dateRowCols f)) :=
    filter_of_map _ _ _
  rw [h1]
  congr 1
  refine List.filter_congr ?_
  intro r _
  rw [getCell_dateRow_other f r "game_id" hgid (by decide)]

theorem colVals_dateConverted_gameId (f : Frame) (hgid : "game_id" ∈ f.cols) :
    colVals (dateConverted f) "game_id" = colVals f "game_id" := by
  rw [dateConverted_eq, colVals, colVals]
  show (f.rows.map (dateRow (dateRowCols f))).map (fun r => getCell r "game_id")
      = f.rows.map (fun r => getCell r "game_id")
  rw [List.map_map]
  refine List.map_congr_left ?_
  intro r _
  exact getCell_dateRow_other f r "game_id" hgid (by decide)

theorem matchKeys_dateConverted (f : Frame) (hgid : "game_id" ∈ f.cols) :
    matchKeys (dateConverted f) = matchKeys f := by
  rw [matchKeys, matchKeys, colVals_dateConverted_gameId f hgid]

/-! ### Lemmas about the external-id mapping -/

theorem mkFbrefMap_some (p mp : Frame) (h : mkFbrefMap p = some mp) :
    mp = { cols := ["game_id", "fbref_match_id"],
           rows := (fbrefPairs p).map
             (fun q => [("game_id", q.1), ("fbref_match_id", q.2)]) } := by
  rw [mkFbrefMap] at h
  by_cases hc : "game" ∈ p.cols ∧ "game_id" ∈ p.cols
  · rw [if_pos hc] at h
    cases h
    rfl
  · rw [if_neg hc] at h
    cases h

theorem fbrefPairs_pairwise (p : Frame) :
    (fbrefPairs p).Pairwise (fun a b => a.1 ≠ b.1) :=
  pairwise_dedupBy Prod.fst _

theorem find_dedupByAux_id {α : Type} [DecidableEq α] (p : α → Bool) :
    ∀ (seen : List α) (l : List α),
      (dedupByAux id seen l).find? p = (l.filter (fun x => decide (x ∉ seen))).find? p := by
  intro seen l
  induction l generalizing seen with
  | nil => simp [dedupByAux]
  | cons y ys ih =>
    simp only [dedupByAux, id]
    by_cases hseen : y ∈ seen
    · rw [if_pos hseen, List.filter_cons_of_neg (by simp [hseen]), ih]
    · rw [if_neg hseen, List.filter_cons_of_pos (by simp [hseen])]
      by_cases hp : p y = true
      · rw [List.find?_cons_of_pos _ hp, List.find?_cons_of_pos _ hp]
      · rw [List.find?_cons_of_neg _ hp, List.find?_cons_of_neg _ hp,
            ih, find_filter, find_filter]
        refine findCongr _ _ _ ?_
        intro x _
        by_cases hxy : x = y
        · subst hxy
          simp [hp]
        · simp [List.mem_cons, hxy]

theorem find_dedupBy_id {α : Type} [DecidableEq α] (p : α → Bool) (l : List α) :
    (dedupBy id l).find? p = l.find? p := by
  rw [dedupBy, find_dedupByAux_id]
  congr 1
  simp

theorem fbrefPairs_find (p : Frame) (g : Cell) :
    (fbrefPairs p).find? (fun q => decide (q.1 = g))
      = ((p.rows.map (fun r => (getCell r "game", getCell r "game_id"))).filter
          (fun q => !(isNa q.1) && !(isNa q.2))).find? (fun q => decide (q.1 = g)) := by
  rw [fbrefPairs, find_dedupBy, find_dedupBy_id]

/-- The frame form of the external-id mapping (what `mkFbrefMap` wraps
in `some` when both source columns exist). -/
def mapFrameOf (p : Frame) : Frame :=
  { cols := ["game_id", "fbref_match_id"],
    rows := (fbrefPairs p).map (fun q => [("game_id", q.1), ("fbref_match_id", q.2)]) }

theorem mkFbrefMap_some_eq (p mp : Frame) (h : mkFbrefMap p = some mp) :
    mp = mapFrameOf p :=
  mkFbrefMap_some p mp h

theorem mapMerge_lname (s p : Frame) (c2 : String) (hc2 : c2 ∈ (matchBase s).cols) :
    mergeLname (matchBase s) (mapFrameOf p) ["game_id"] c2 = c2 := by
  have hm : c2 ∈ matchesCols := hc2
  simp only [matchesCols, List.mem_cons, List.not_mem_nil, or_false] at hm
  rcases hm with rfl | rfl | rfl | rfl | rfl | rfl <;> rfl

theorem mergeRowMatches_map (p : Frame) (r : Row) :
    mergeRowMatches (mapFrameOf p) ["game_id"] r
      = ((fbrefPairs p).filter (fun q => decide (q.1 = getCell r "game_id"))).map
          (fun q => [("game_id", q.1), ("fbref_match_id", q.2)]) := by
  rw [mergeRowMatches]
  show ((fbrefPairs p).map (fun q => [("game_id", q.1), ("fbref_match_id", q.2)])).filter _
      = _
  rw [filter_of_map]
  congr 1
  refine List.filter_congr ?_
  intro q _
  show (["game_id"].all fun k =>
      decide (getCell r k = getCell [("game_id", q.1), ("fbref_match_id", q.2)] k))
    = decide (q.1 = getCell r "game_id")
  have h1 : getCell [("game_id", q.1), ("fbref_match_id", q.2)] "game_id" = q.1 := rfl
  simp only [List.all_cons, List.all_nil, h1, Bool.and_true]
  exact decide_eq_decide.mpr ⟨Eq.symm, Eq.symm⟩

theorem mergeRowMatches_map_le_one (p : Frame) (r : Row) :
    (mergeRowMatches (mapFrameOf p) ["game_id"] r).length ≤ 1 := by
  rw [mergeRowMatches_map p r, List.length_map,
      filter_eq_of_pairwise_key Prod.fst (getCell r "game_id") _ (fbrefPairs_pairwise p)]
  cases (fbrefPairs p).find? (fun q => decide (q.1 = getCell r "game_id")) <;> simp

theorem mapMerge_rows (s p out : Frame)
    (h : mergeLeft (matchBase s) (mapFrameOf p) ["game_id"] = .ok out) :
    out.rows = (matchBase s).rows.map
      (mergeRowOne (matchBase s) (mapFrameOf p) ["game_id"]) :=
  mergeLeft_rows_map _ _ _ _ h (fun r => mergeRowMatches_map_le_one p r)

theorem getCell_mapMerge_left (s p : Frame) (r : Row) (c : String)
    (hc : c ∈ matchesCols) :
    getCell (mergeRowOne (matchBase s) (mapFrameOf p) ["game_id"] r) c = getCell r c :=
  getCell_mergeRowOne_left _ _ _ _ _ hc (fun c2 hc2 => mapMerge_lname s p c2 hc2)

theorem getCell_mapMerge_fbref (s p : Frame) (r : Row) :
    getCell (mergeRowOne (matchBase s) (mapFrameOf p) ["game_id"] r) "fbref_match_id"
      = (((fbrefPairs p).find? (fun q => decide (q.1 = getCell r "game_id"))).map
          Prod.snd).getD .na := by
  rw [getCell_mergeRowOne_right _ _ _ _ _ (by
        intro c2 hc2
        rw [mapMerge_lname s p c2 hc2]
        have hm : c2 ∈ matchesCols := hc2
        simp only [matchesCols, List.mem_cons, List.not_mem_nil, or_false] at hm
        rcases hm with rfl | rfl | rfl | rfl | rfl | rfl <;> decide)]
  rw [mergeRowMatches_map p r,
      filter_eq_of_pairwise_key Prod.fst (getCell r "game_id") _ (fbrefPairs_pairwise p)]
  cases hf : (fbrefPairs p).find? (fun q => decide (q.1 = getCell r "game_id")) with
  | none => rfl
  | some q => rfl

theorem buildMatches_ok_mem (schedule : Frame) (fm : Option Frame) (m : Frame)
    (h : buildMatches schedule fm = .ok m) (c : String) (hc : c ∈ requiredMatchCols) :
    c ∈ schedule.cols := by
  rw [buildMatches.eq_def] at h
  by_cases hg : requiredMatchCols.all (fun c => decide (c ∈ schedule.cols)) = true
  · simpa using List.all_eq_true.mp hg c hc
  · rw [if_neg hg] at h
    cases h

theorem buildMatches_cases (schedule : Frame) (fm : Option Frame) (m : Frame)
    (h : buildMatches schedule fm = .ok m) :
    m = matchBase schedule
      ∨ ∃ mp, fm = some mp ∧ mergeLeft (matchBase schedule) mp ["game_id"] = .ok m := by
  rw [buildMatches.eq_def] at h
  by_cases hg : requiredMatchCols.all (fun c => decide (c ∈ schedule.cols)) = true
  · rw [if_pos hg] at h
    cases fm with
    | none =>
      cases h
      exact Or.inl rfl
    | some mp =>
      dsimp only at h
      by_cases he : mp.rows.isEmpty = true
      · rw [if_pos he] at h
        cases h
        exact Or.inl rfl
      · rw [if_neg he] at h
        exact Or.inr ⟨mp, rfl, h⟩
  · rw [if_neg hg] at h
    cases h

/-! ### Claim C1 -/

/-- Extraction of a successful frame result (used to instantiate
theorems at concrete inputs). -/
def okFrame (e : Except String Frame) : Frame :=
  match e with
  | .ok f => f
  | .error _ => { cols := [], rows := [] }

theorem headD_map {α β : Type} (f : α → β) (l : List α) (d : β) (d2 : α)
    (h : l ≠ []) : (l.map f).headD d = f (l.headD d2) := by
  cases l with
  | nil => exact absurd rfl h
  | cons x xs => rfl

/-- C1: for every distinct non-missing game identifier present in the
raw schedule (its `game` column when present, else `game_id`), the
derived matches table contains exactly one row carrying that
identifier - including groups without a recognizable venue tag, whose
home/away pair is taken from the first row of the group. -/
theorem c1_exactly_one_match_row
    (rawSchedule rawPlayers sp m : Frame) (g : Cell)
    (hprep : prepareSchedule rawSchedule = .ok sp)
    (hok : buildMatches sp (mkFbrefMap rawPlayers) = .ok m)
    (hg : g ∈ gameIdValuesRaw rawSchedule) (hna : isNa g = false) :
    (m.rows.filter (fun r => decide (getCell r "game_id" = g))).length = 1
    ∧ ∀ r ∈ m.rows, getCell r "game_id" = g →
        (matchGroup sp g).filter
            (fun row => decide (venueLower (getCell row "venue") = "home")) = [] →
        (matchGroup sp g).filter
            (fun row => decide (venueLower (getCell row "venue") = "away")) = [] →
        getCell r "home_team" = getCell ((matchGroup sp g).headD []) "team"
          ∧ getCell r "away_team" = getCell ((matchGroup sp g).headD []) "opponent" := by
  have hgid : "game_id" ∈ sp.cols :=
    buildMatches_ok_mem sp (mkFbrefMap rawPlayers) m hok "game_id" (by decide)
  have hven : "venue" ∈ sp.cols :=
    buildMatches_ok_mem sp (mkFbrefMap rawPlayers) m hok "venue" (by decide)
  have hteam : "team" ∈ sp.cols :=
    buildMatches_ok_mem sp (mkFbrefMap rawPlayers) m hok "team" (by decide)
  have hopp : "opponent" ∈ sp.cols :=
    buildMatches_ok_mem sp (mkFbrefMap rawPlayers) m hok "opponent" (by decide)
  have hkeys : g ∈ matchKeys (dateConverted sp) := by
    rw [mem_matchKeys, colVals_dateConverted_gameId sp hgid,
        prepare_colVals_gameId rawSchedule _ _ sp hprep (by decide) (by decide)]
    exact ⟨hg, hna⟩
  have hbasefilter := matchBase_filter sp g hkeys
  -- transfer of the group and its venue filters from the date-converted
  -- schedule back to the prepared schedule
  have hgroup := matchGroup_dateConverted sp g hgid
  have hvenue_pt : ∀ row ∈ matchGroup sp g,
      venueLower (getCell (dateRow (dateRowCols sp) row) "venue")
        = venueLower (getCell row "venue") := by
    intro row _
    rw [getCell_dateRow_other sp row "venue" hven (by decide)]
  have hfallback : ∀ rb, rb = mkMatchRow (dateConverted sp) g →
      (matchGroup sp g).filter
          (fun row => decide (venueLower (getCell row "venue") = "home")) = [] →
      (matchGroup sp g).filter
          (fun row => decide (venueLower (getCell row "venue") = "away")) = [] →
      getCell rb "home_team" = getCell ((matchGroup sp g).headD []) "team"
        ∧ getCell rb "away_team" = getCell ((matchGroup sp g).headD []) "opponent" := by
    intro rb hrb hhome haway
    subst hrb
    rw [getCell_mkMatchRow_home, getCell_mkMatchRow_away]
    have hhome2 : (matchGroup (dateConverted sp) g).filter
        (fun row => decide (venueLower (getCell row "venue") = "home")) = [] := by
      rw [hgroup, filter_of_map]
      rw [List.filter_congr (fun row hr => by
        rw [hvenue_pt row hr]), hhome]
      rfl
    have haway2 : (matchGroup (dateConverted sp) g).filter
        (fun row => decide (venueLower (getCell row "venue") = "away")) = [] := by
      rw [hgroup, filter_of_map]
      rw [List.filter_congr (fun row hr => by
        rw [hvenue_pt row hr]), haway]
      rfl
    rw [resolveHomeAway, hhome2, haway2]
    cases hgrp : matchGroup sp g with
    | nil =>
      rw [hgroup, hgrp]
      dsimp only [List.map_nil, List.headD]
      exact ⟨rfl, rfl⟩
    | cons x xs =>
      rw [hgroup, hgrp]
      dsimp only [List.map_cons, List.headD]
      rw [getCell_dateRow_other sp x "team" hteam (by decide),
          getCell_dateRow_other sp x "opponent" hopp (by decide)]
      exact ⟨rfl, rfl⟩
  rcases buildMatches_cases sp (mkFbrefMap rawPlayers) m hok with hbase | ⟨mp, hmp, hmerge⟩
  · subst hbase
    constructor
    · rw [hbasefilter]
      rfl
    · intro r hr hrg hhome haway
      have hrmem : r ∈ (matchBase sp).rows.filter
          (fun r => decide (getCell r "game_id" = g)) :=
        List.mem_filter.mpr ⟨hr, by simp [hrg]⟩
      rw [hbasefilter] at hrmem
      rcases List.mem_singleton.mp hrmem with rfl
      exact hfallback _ rfl hhome haway
  · have hmpe := mkFbrefMap_some_eq rawPlayers mp hmp
    subst hmpe
    have hrows := mapMerge_rows sp rawPlayers m hmerge
    constructor
    · rw [hrows, filter_of_map,
          List.filter_congr (fun r _ => by
            rw [getCell_mapMerge_left sp rawPlayers r "game_id" (by decide)]),
          hbasefilter]
      rfl
    · intro r hr hrg hhome haway
      rw [hrows] at hr
      rcases List.mem_map.mp hr with ⟨rb, hrb, rfl⟩
      rw [getCell_mapMerge_left sp rawPlayers rb "game_id" (by decide)] at hrg
      have hrbmem : rb ∈ (matchBase sp).rows.filter
          (fun r2 => decide (getCell r2 "game_id" = g)) :=
        List.mem_filter.mpr ⟨hrb, by simp [hrg]⟩
      rw [hbasefilter] at hrbmem
      rcases List.mem_singleton.mp hrbmem with rfl
      rw [getCell_mapMerge_left sp rawPlayers _ "home_team" (by decide),
          getCell_mapMerge_left sp rawPlayers _ "away_team" (by decide)]
      exact hfallback _ rfl hhome haway

/-- A small raw schedule: one game with home/away tags, one game whose
venue tag is unrecognizable. -/
def c1ExSchedule : Frame :=
  { cols := ["game", "team", "opponent", "venue", "date", "league", "season"],
    rows := [
      [("game", .str "G1"), ("team", .str "Arsenal"), ("opponent", .str "Chelsea"),
       ("venue", .str "Home"), ("date", .str "2024-01-01"), ("league", .str "EPL"),
       ("season", .str "2024")],
      [("game", .str "G1"), ("team", .str "Chelsea"), ("opponent", .str "Arsenal"),
       ("venue", .str "Away"), ("date", .str "2024-01-01"), ("league", .str "EPL"),
       ("season", .str "2024")],
      [("game", .str "G2"), ("team", .str "Tottenham"), ("opponent", .str "West Ham"),
       ("venue", .na), ("date", .str "2024-01-02"), ("league", .str "EPL"),
       ("season", .str "2024")]] }

/-- A small raw player summary carrying both the provider token and the
canonical identifier. -/
def c1ExPlayers : Frame :=
  { cols := ["game", "game_id", "player", "team", "min"],
    rows := [
      [("game", .str "G1"), ("game_id", .str "F1"), ("player", .str "X"),
       ("team", .str "Arsenal"), ("min", .str "90")],
      [("game", .str "G2"), ("game_id", .str "F2"), ("player", .str "Z"),
       ("team", .str "Tottenham"), ("min", .str "78")]] }

/-- Witness for C1 at the venue-less game G2. -/
theorem c1_exactly_one_match_row_witness :
    ((okFrame (buildMatches (okFrame (prepareSchedule c1ExSchedule))
          (mkFbrefMap c1ExPlayers))).rows.filter
        (fun r => decide (getCell r "game_id" = Cell.str "G2"))).length = 1 :=
  (c1_exactly_one_match_row c1ExSchedule c1ExPlayers
      (okFrame (prepareSchedule c1ExSchedule))
      (okFrame (buildMatches (okFrame (prepareSchedule c1ExSchedule))
        (mkFbrefMap c1ExPlayers)))
      (Cell.str "G2") rfl rfl (by decide) (by decide)).1

/-! ### Claim C2 -/

/-- C2: home/away orientation per game-identifier group, in priority
order: a home-tagged row (matched case-insensitively) makes its team
the home team and its opponent the away team; otherwise an away-tagged
row contributes its opponent as home and its team as away.  The
hypotheses and the conclusion mention the group only through
membership, so the result is independent of the order of rows within
the group. -/
theorem c2_home_away_resolution
    (rawPlayers sp m : Frame) (g A B : Cell)
    (hok : buildMatches sp (mkFbrefMap rawPlayers) = .ok m)
    (r : Row) (hr : r ∈ m.rows) (hrg : getCell r "game_id" = g) :
    ((∃ h2 ∈ matchGroup sp g, venueLower (getCell h2 "venue") = "home") →
     (∀ h2 ∈ matchGroup sp g, venueLower (getCell h2 "venue") = "home" →
        getCell h2 "team" = A ∧ getCell h2 "opponent" = B) →
     getCell r "home_team" = A ∧ getCell r "away_team" = B)
    ∧ ((∀ h2 ∈ matchGroup sp g, venueLower (getCell h2 "venue") ≠ "home") →
       (∃ a2 ∈ matchGroup sp g, venueLower (getCell a2 "venue") = "away") →
       (∀ a2 ∈ matchGroup sp g, venueLower (getCell a2 "venue") = "away" →
          getCell a2 "team" = B ∧ getCell a2 "opponent" = A) →
       getCell r "home_team" = A ∧ getCell r "away_team" = B) := by
  have hgid : "game_id" ∈ sp.cols :=
    buildMatches_ok_mem sp (mkFbrefMap rawPlayers) m hok "game_id" (by decide)
  have hven : "venue" ∈ sp.cols :=
    buildMatches_ok_mem sp (mkFbrefMap rawPlayers) m hok "venue" (by decide)
  have hteam : "team" ∈ sp.cols :=
    buildMatches_ok_mem sp (mkFbrefMap rawPlayers) m hok "team" (by decide)
  have hopp : "opponent" ∈ sp.cols :=
    buildMatches_ok_mem sp (mkFbrefMap rawPlayers) m hok "opponent" (by decide)
  have hgroup := matchGroup_dateConverted sp g hgid
  have hvenue_pt : ∀ row,
      venueLower (getCell (dateRow (dateRowCols sp) row) "venue")
        = venueLower (getCell row "venue") := by
    intro row
    rw [getCell_dateRow_other sp row "venue" hven (by decide)]
  have key : ∀ rb ∈ (matchBase sp).rows, getCell rb "game_id" = g →
      ((∃ h2 ∈ matchGroup sp g, venueLower (getCell h2 "venue") = "home") →
       (∀ h2 ∈ matchGroup sp g, venueLower (getCell h2 "venue") = "home" →
          getCell h2 "team" = A ∧ getCell h2 "opponent" = B) →
       getCell rb "home_team" = A ∧ getCell rb "away_team" = B)
      ∧ ((∀ h2 ∈ matchGroup sp g, venueLower (getCell h2 "venue") ≠ "home") →
         (∃ a2 ∈ matchGroup sp g, venueLower (getCell a2 "venue") = "away") →
         (∀ a2 ∈ matchGroup sp g, venueLower (getCell a2 "venue") = "away" →
            getCell a2 "team" = B ∧ getCell a2 "opponent" = A) →
         getCell rb "home_team" = A ∧ getCell rb "away_team" = B) := by
    intro rb hrb hrbg
    rcases List.mem_map.mp hrb with ⟨k, hk, rfl⟩
    rw [getCell_mkMatchRow_gameId] at hrbg
    subst hrbg
    rw [getCell_mkMatchRow_home, getCell_mkMatchRow_away]
    have hfiltermap : ∀ tag : String,
        (matchGroup (dateConverted sp) k).filter
            (fun row => decide (venueLower (getCell row "venue") = tag))
          = ((matchGroup sp k).filter
              (fun row => decide (venueLower (getCell row "venue") = tag))).map
              (dateRow (dateRowCols sp)) := by
      intro tag
      rw [hgroup, filter_of_map]
      congr 1
      refine List.filter_congr ?_
      intro row _
      rw [hvenue_pt row]
    constructor
    · rintro ⟨h2, hh2, hh2v⟩ hagree
      have hne : (matchGroup sp k).filter
          (fun row => decide (venueLower (getCell row "venue") = "home")) ≠ [] := by
        intro hc
        have : h2 ∈ (matchGroup sp k).filter
            (fun row => decide (venueLower (getCell row "venue") = "home")) :=
          List.mem_filter.mpr ⟨hh2, by simp [hh2v]⟩
        rw [hc] at this
        cases this
      rw [resolveHomeAway, hfiltermap "home"]
      cases hsf : (matchGroup sp k).filter
          (fun row => decide (venueLower (getCell row "venue") = "home")) with
      | nil => exact absurd hsf hne
      | cons h0 hs =>
        have hh0 : h0 ∈ matchGroup sp k ∧
            venueLower (getCell h0 "venue") = "home" := by
          have := List.mem_filter.mp (hsf ▸ List.mem_cons_self h0 hs)
          exact ⟨this.1, by simpa using this.2⟩
        dsimp only [List.map_cons]
        rcases hagree h0 hh0.1 hh0.2 with ⟨hA, hB⟩
        rw [getCell_dateRow_other sp h0 "team" hteam (by decide),
            getCell_dateRow_other sp h0 "opponent" hopp (by decide)]
        exact ⟨hA, hB⟩
    · intro hnohome ⟨a2, ha2, ha2v⟩ hagree
      have hhomeempty : (matchGroup sp k).filter
          (fun row => decide (venueLower (getCell row "venue") = "home")) = [] := by
        refine List.filter_eq_nil_iff.mpr ?_
        intro row hrow
        simp only [decide_eq_true_eq]
        exact hnohome row hrow
      have hne : (matchGroup sp k).filter
          (fun row => decide (venueLower (getCell row "venue") = "away")) ≠ [] := by
        intro hc
        have : a2 ∈ (matchGroup sp k).filter
            (fun row => decide (venueLower (getCell row "venue") = "away")) :=
          List.mem_filter.mpr ⟨ha2, by simp [ha2v]⟩
        rw [hc] at this
        cases this
      rw [resolveHomeAway, hfiltermap "home", hhomeempty, hfiltermap "away"]
      cases hsf : (matchGroup sp k).filter
          (fun row => decide (venueLower (getCell row "venue") = "away")) with
      | nil => exact absurd hsf hne
      | cons a0 as =>
        have ha0 : a0 ∈ matchGroup sp k ∧
            venueLower (getCell a0 "venue") = "away" := by
          have := List.mem_filter.mp (hsf ▸ List.mem_cons_self a0 as)
          exact ⟨this.1, by simpa using this.2⟩
        dsimp only [List.map_nil, List.map_cons]
        rcases hagree a0 ha0.1 ha0.2 with ⟨hB, hA⟩
        rw [getCell_dateRow_other sp a0 "team" hteam (by decide),
            getCell_dateRow_other sp a0 "opponent" hopp (by decide)]
        exact ⟨hA, hB⟩
  rcases buildMatches_cases sp (mkFbrefMap rawPlayers) m hok with hbase | ⟨mp, hmp, hmerge⟩
  · subst hbase
    exact key r hr hrg
  · have hmpe := mkFbrefMap_some_eq rawPlayers mp hmp
    subst hmpe
    rw [mapMerge_rows sp rawPlayers m hmerge] at hr
    rcases List.mem_map.mp hr with ⟨rb, hrb, rfl⟩
    rw [getCell_mapMerge_left sp rawPlayers rb "game_id" (by decide)] at hrg
    rw [getCell_mapMerge_left sp rawPlayers rb "home_team" (by decide),
        getCell_mapMerge_left sp rawPlayers rb "away_team" (by decide)]
    exact key rb hrb hrg

/-- A prepared-style schedule whose away-tagged row precedes the
home-tagged row, to exercise order-independence. -/
def c2ExSchedule : Frame :=
  { cols := ["game_id", "team", "opponent", "venue", "date", "league", "season"],
    rows := [
      [("game_id", .str "G1"), ("team", .str "Chelsea"), ("opponent", .str "Arsenal"),
       ("venue", .str "Away"), ("date", .str "2024-01-01"), ("league", .str "EPL"),
       ("season", .str "2024")],
      [("game_id", .str "G1"), ("team", .str "Arsenal"), ("opponent", .str "Chelsea"),
       ("venue", .str "Home"), ("date", .str "2024-01-01"), ("league", .str "EPL"),
       ("season", .str "2024")]] }

/-- A player summary without the provider token column, so no external
mapping is derivable. -/
def c2ExPlayers : Frame :=
  { cols := ["game_id", "player", "team"],
    rows := [[("game_id", .str "G1"), ("player", .str "X"), ("team", .str "Arsenal")]] }

/-- Witness for C2: the home-tagged row wins even when it is listed
second. -/
theorem c2_home_away_resolution_witness :
    getCell (rowAt (okFrame (buildMatches c2ExSchedule (mkFbrefMap c2ExPlayers))) 0)
        "home_team" = Cell.str "Arsenal"
    ∧ getCell (rowAt (okFrame (buildMatches c2ExSchedule (mkFbrefMap c2ExPlayers))) 0)
        "away_team" = Cell.str "Chelsea" :=
  (c2_home_away_resolution c2ExPlayers c2ExSchedule
      (okFrame (buildMatches c2ExSchedule (mkFbrefMap c2ExPlayers)))
      (Cell.str "G1") (Cell.str "Arsenal") (Cell.str "Chelsea") rfl
      (rowAt (okFrame (buildMatches c2ExSchedule (mkFbrefMap c2ExPlayers))) 0)
      (by decide) (by decide)).1 (by decide) (by decide)

/-! ### Claim C3 -/

/-- C3: the coercer maps `"7"` to 7, the empty string, `"N/A"`, missing
values and every other unparsable cell to null (never to zero), and
leaves integers unchanged - but it does NOT hold that it never raises:
on a numeric value with a nonzero fractional part such as `"7.5"`,
`pd.to_numeric` succeeds with a float and `.astype("Int64")` raises
`TypeError: cannot safely cast non-equivalent float64 to int64`. -/
theorem c3_numeric_coercion :
    coerceCell (.str "7") = .ok (.int 7)
    ∧ coerceCell (.str "") = .ok .na
    ∧ coerceCell (.str "N/A") = .ok .na
    ∧ coerceCell .na = .ok .na
    ∧ coerceCell (.int 7) = .ok (.int 7)
    ∧ (∀ c : Cell, toNumeric c = .naN → coerceCell c = .ok .na)
    ∧ coerceCell (.str "7.5")
        = .error "cannot safely cast non-equivalent float64 to int64" := by
  refine ⟨rfl, rfl, rfl, rfl, rfl, ?_, rfl⟩
  intro c h
  rw [coerceCell, h]
  rfl

/-- Witness for the unparsable-to-null part of C3 at a concrete input. -/
theorem c3_numeric_coercion_witness :
    coerceCell (Cell.str "abc") = .ok Cell.na :=
  c3_numeric_coercion.2.2.2.2.2.1 (Cell.str "abc") rfl

/-! ### Lemmas about the opponent lookup and the player stat builder -/

theorem find_map {α β : Type} (f : α → β) (p : β → Bool) (l : List α) :
    (l.map f).find? p = (l.find? (fun x => p (f x))).map f := by
  induction l with
  | nil => rfl
  | cons x xs ih =>
    rw [List.map_cons, List.find?_cons, List.find?_cons]
    cases h : p (f x) with
    | true => rfl
    | false => simpa using ih

theorem opponentDfOf_ok (schedule od : Frame) (h : opponentDfOf schedule = .ok od) :
    od.cols = ["game_id", "team", "opponent"]
    ∧ od.rows = dedupBy (fun r => (getCell r "game_id", getCell r "team"))
        ((schedule.rows.map (canonRow ["game_id", "team", "opponent"])).filter
          (fun r => !(isNa (getCell r "game_id")) && !(isNa (getCell r "team")))) := by
  rw [opponentDfOf] at h
  cases hsel : selectCols schedule ["game_id", "team", "opponent"] with
  | error e =>
    rw [hsel] at h
    simp [Bind.bind, Except.bind] at h
  | ok sel =>
    rw [hsel] at h
    simp only [Bind.bind, Except.bind, pure, Except.pure, Except.ok.injEq] at h
    rcases selectCols_ok schedule _ sel hsel with ⟨hcols, _, _, _⟩
    have hrows : sel.rows = schedule.rows.map (canonRow ["game_id", "team", "opponent"]) := by
      rw [selectCols] at hsel
      by_cases hall : (["game_id", "team", "opponent"].all
          (fun c => decide (c ∈ schedule.cols))) = true
      · rw [if_pos hall] at hsel
        cases hsel
        rfl
      · rw [if_neg hall] at hsel
        cases hsel
    cases h
    exact ⟨hcols, by rw [hrows]⟩

theorem addCoercedStat_ok (f : Frame) (outName : String) (src : Option String)
    (s2 : Frame) (h : addCoercedStat f outName src = .ok s2) :
    s2.rows.length = f.rows.length
    ∧ (∀ c2, c2 ≠ outName → ∀ i, i < f.rows.length →
        getCell (rowAt s2 i) c2
          = if c2 ∈ f.cols then getCell (rowAt f i) c2 else .na)
    ∧ (∀ c2, c2 ∈ s2.cols ↔ c2 ∈ f.cols ∨ c2 = outName)
    ∧ (src = none → ∀ i, i < f.rows.length → getCell (rowAt s2 i) outName = .na)
    ∧ (∀ c, src = some c → ∀ i, i < f.rows.length →
        coerceCell (getCell (rowAt f i) c) = .ok (getCell (rowAt s2 i) outName)) := by
  cases src with
  | none =>
    simp only [addCoercedStat, pure, Except.pure, Except.ok.injEq] at h
    have hlen : (f.rows.map (fun _ => Cell.na)).length = f.rows.length := by simp
    subst h
    refine ⟨setColVals_length _ _ _ hlen, ?_, ?_, ?_, ?_⟩
    · intro c2 hc2 i hi
      rw [getCell_setColVals f outName _ c2 i hi hlen, if_neg hc2]
    · intro c2
      exact mem_setColVals_cols f outName _ c2
    · intro _ i hi
      rw [getCell_setColVals f outName _ outName i hi hlen, if_pos rfl,
          getD_map (fun _ => Cell.na) f.rows i .na [] hi]
    · intro c hc
      cases hc
  | some c =>
    simp only [addCoercedStat] at h
    cases hcs : coerceSeries (colVals f c) with
    | error e =>
      rw [hcs] at h
      simp [Bind.bind, Except.bind] at h
    | ok vals =>
      rw [hcs] at h
      simp only [Bind.bind, Except.bind, pure, Except.pure, Except.ok.injEq] at h
      have hlen : vals.length = f.rows.length := by
        rw [coerceSeries_ok_length _ _ hcs, colVals_length]
      subst h
      refine ⟨setColVals_length _ _ _ hlen, ?_, ?_, ?_, ?_⟩
      · intro c2 hc2 i hi
        rw [getCell_setColVals f outName _ c2 i hi hlen, if_neg hc2]
      · intro c2
        exact mem_setColVals_cols f outName _ c2
      · intro hn
        cases hn
      · intro c0 hc0 i hi
        cases hc0
        rw [getCell_setColVals f outName _ outName i hi hlen, if_pos rfl,
            ← colVals_getD f c i hi]
        exact coerceSeries_ok_getD _ _ hcs i

theorem buildPlayerMatchStats_ok (p od out : Frame)
    (h : buildPlayerMatchStats p od = .ok out) :
    (∀ c ∈ ["game_id", "player", "team"], c ∈ p.cols)
    ∧ ∃ merged s1 s2 s3 s4,
        mergeLeft p od ["game_id", "team"] = .ok merged
        ∧ addCoercedStat merged "minutes" (firstExistingColumn p ["min", "minutes"]) = .ok s1
        ∧ addCoercedStat s1 "goals" (firstExistingColumn p ["gls", "goals", "performance_gls"]) = .ok s2
        ∧ addCoercedStat s2 "assists" (firstExistingColumn p ["ast", "assists", "performance_ast"]) = .ok s3
        ∧ addCoercedStat s3 "shots" (firstExistingColumn p ["sh", "shots", "performance_sh"]) = .ok s4
        ∧ selectCols s4 ["game_id", "player", "team", "opponent",
            "minutes", "goals", "assists", "shots"] = .ok out := by
  rw [buildPlayerMatchStats] at h
  by_cases hg : (["game_id", "player", "team"].all (fun c => decide (c ∈ p.cols))) = true
  · rw [if_pos hg] at h
    have hmem : ∀ c ∈ ["game_id", "player", "team"], c ∈ p.cols := by
      intro c hc
      simpa using List.all_eq_true.mp hg c hc
    cases hm : mergeLeft p od ["game_id", "team"] with
    | error e =>
      rw [hm] at h
      simp [Bind.bind, Except.bind] at h
    | ok merged =>
      rw [hm] at h
      simp only [Bind.bind, Except.bind] at h
      cases h1 : addCoercedStat merged "minutes" (firstExistingColumn p ["min", "minutes"]) with
      | error e =>
        rw [h1] at h
        simp [Except.bind] at h
      | ok s1 =>
        rw [h1] at h
        dsimp only at h
        cases h2 : addCoercedStat s1 "goals"
            (firstExistingColumn p ["gls", "goals", "performance_gls"]) with
        | error e =>
          rw [h2] at h
          simp at h
        | ok s2 =>
          rw [h2] at h
          dsimp only at h
          cases h3 : addCoercedStat s2 "assists"
              (firstExistingColumn p ["ast", "assists", "performance_ast"]) with
          | error e =>
            rw [h3] at h
            simp at h
          | ok s3 =>
            rw [h3] at h
            dsimp only at h
            cases h4 : addCoercedStat s3 "shots"
                (firstExistingColumn p ["sh", "shots", "performance_sh"]) with
            | error e =>
              rw [h4] at h
              simp at h
            | ok s4 =>
              rw [h4] at h
              dsimp only at h
              exact ⟨hmem, merged, s1, s2, s3, s4, rfl, h1, h2, h3, h4, h⟩
  · rw [if_neg hg] at h
    cases h

theorem two_key_all (r mr : Row) :
    (["game_id", "team"].all (fun k => decide (getCell r k = getCell mr k)))
      = decide ((getCell mr "game_id", getCell mr "team")
          = (getCell r "game_id", getCell r "team")) := by
  simp only [List.all_cons, List.all_nil, Bool.and_true]
  rw [← Bool.decide_and]
  refine decide_eq_decide.mpr ?_
  rw [Prod.mk.injEq]
  exact ⟨fun h => ⟨h.1.symm, h.2.symm⟩, fun h => ⟨h.1.symm, h.2.symm⟩⟩

theorem mergeRowMatches_od (od : Frame) (r : Row) :
    mergeRowMatches od ["game_id", "team"] r
      = od.rows.filter (fun mr => decide ((getCell mr "game_id", getCell mr "team")
          = (getCell r "game_id", getCell r "team"))) := by
  rw [mergeRowMatches]
  exact List.filter_congr (fun mr _ => two_key_all r mr)

theorem odKey_pairwise (schedule od : Frame) (hod : opponentDfOf schedule = .ok od) :
    od.rows.Pairwise (fun a b =>
      (getCell a "game_id", getCell a "team") ≠ (getCell b "game_id", getCell b "team")) := by
  rw [(opponentDfOf_ok schedule od hod).2]
  exact pairwise_dedupBy _ _

theorem mergeRowMatches_od_le_one (schedule od : Frame)
    (hod : opponentDfOf schedule = .ok od) (r : Row) :
    (mergeRowMatches od ["game_id", "team"] r).length ≤ 1 := by
  rw [mergeRowMatches_od]
  have hf := filter_eq_of_pairwise_key
    (fun mr : Row => (getCell mr "game_id", getCell mr "team"))
    (getCell r "game_id", getCell r "team") od.rows (odKey_pairwise schedule od hod)
  rw [hf]
  cases od.rows.find? (fun mr => decide ((getCell mr "game_id", getCell mr "team")
      = (getCell r "game_id", getCell r "team"))) <;> simp

theorem od_overlap_true (p od : Frame) (hodcols : od.cols = ["game_id", "team", "opponent"])
    (c : String) (h : mergeOverlap p od ["game_id", "team"] c = true) :
    c = "opponent" ∧ "opponent" ∈ p.cols := by
  rw [mergeOverlap, Bool.and_eq_true, Bool.and_eq_true] at h
  rcases h with ⟨⟨h1, h2⟩, h3⟩
  have hc1 : c ∉ ["game_id", "team"] := of_decide_eq_true h1
  have hc2 : c ∈ p.cols := of_decide_eq_true h2
  have hc3 : c ∈ od.cols := of_decide_eq_true h3
  rw [hodcols] at hc3
  rcases List.mem_cons.mp hc3 with rfl | hc3
  · exact absurd (List.mem_cons_self _ _) hc1
  rcases List.mem_cons.mp hc3 with rfl | hc3
  · exact absurd (List.mem_cons_of_mem _ (List.mem_cons_self _ _)) hc1
  rcases List.mem_cons.mp hc3 with rfl | hc3
  · exact ⟨rfl, hc2⟩
  · cases hc3

theorem od_overlap_opponent (p od : Frame)
    (hodcols : od.cols = ["game_id", "team", "opponent"]) (hop : "opponent" ∈ p.cols) :
    mergeOverlap p od ["game_id", "team"] "opponent" = true := by
  rw [mergeOverlap, hodcols]
  simp [hop]

theorem od_overlap_opponent_false (p od : Frame) (hop : "opponent" ∉ p.cols) :
    mergeOverlap p od ["game_id", "team"] "opponent" = false := by
  rw [mergeOverlap]
  simp [hop]

theorem od_lname_id (p od : Frame) (hodcols : od.cols = ["game_id", "team", "opponent"])
    (hop : "opponent" ∉ p.cols) (c : String) :
    mergeLname p od ["game_id", "team"] c = c := by
  rw [mergeLname]
  by_cases hov : mergeOverlap p od ["game_id", "team"] c = true
  · rcases od_overlap_true p od hodcols c hov with ⟨rfl, hmem⟩
    exact absurd hmem hop
  · rw [if_neg hov]

theorem od_opponent_not_in_p (p od : Frame)
    (hodcols : od.cols = ["game_id", "team", "opponent"])
    (hmem : "opponent" ∈ (p.cols.map (mergeLname p od ["game_id", "team"])
      ++ (mergeRightNonKey od ["game_id", "team"]).map (mergeRname p od ["game_id", "team"]))) :
    "opponent" ∉ p.cols := by
  intro hop
  have hov := od_overlap_opponent p od hodcols hop
  rcases List.mem_append.mp hmem with hleft | hright
  · rcases List.mem_map.mp hleft with ⟨c, hc, hlc⟩
    by_cases hcov : mergeOverlap p od ["game_id", "team"] c = true
    · rcases od_overlap_true p od hodcols c hcov with ⟨rfl, _⟩
      rw [mergeLname, if_pos hcov] at hlc
      exact absurd hlc (by decide)
    · rw [mergeLname, if_neg hcov] at hlc
      subst hlc
      exact hcov hov
  · rcases List.mem_map.mp hright with ⟨c, hc, hrc⟩
    rw [mergeRightNonKey, hodcols] at hc
    have hlit : (["game_id", "team", "opponent"].filter
        (fun c => decide (c ∉ ["game_id", "team"]))) = ["opponent"] := rfl
    rw [hlit] at hc
    rcases List.mem_singleton.mp hc with rfl
    rw [mergeRname, if_pos hov] at hrc
    exact absurd hrc (by decide)

theorem od_rightNonKey (od : Frame) (hodcols : od.cols = ["game_id", "team", "opponent"]) :
    mergeRightNonKey od ["game_id", "team"] = ["opponent"] := by
  rw [mergeRightNonKey, hodcols]
  rfl

theorem getCell_odMerge_left (p od : Frame)
    (hodcols : od.cols = ["game_id", "team", "opponent"]) (hop : "opponent" ∉ p.cols)
    (r : Row) (c : String) (hc : c ∈ p.cols) :
    getCell (mergeRowOne p od ["game_id", "team"] r) c = getCell r c :=
  getCell_mergeRowOne_left p od _ r c hc (fun c2 _ => od_lname_id p od hodcols hop c2)

theorem getCell_odMerge_opponent (p od : Frame) (schedule : Frame)
    (hod : opponentDfOf schedule = .ok od) (hop : "opponent" ∉ p.cols) (r : Row) :
    getCell (mergeRowOne p od ["game_id", "team"] r) "opponent"
      = ((od.rows.find? (fun mr => decide ((getCell mr "game_id", getCell mr "team")
            = (getCell r "game_id", getCell r "team")))).map
          (fun mr => getCell mr "opponent")).getD .na := by
  have hodcols := (opponentDfOf_ok schedule od hod).1
  have hovf := od_overlap_opponent_false p od hop
  have hrn : mergeRname p od ["game_id", "team"] "opponent" = "opponent" := by
    rw [mergeRname, hovf]
    rfl
  have hrnk := od_rightNonKey od hodcols
  rw [getCell_mergeRowOne_right p od _ r "opponent" (fun c2 hc2 => by
    rw [od_lname_id p od hodcols hop c2]
    intro hc
    exact hop (hc ▸ hc2))]
  rw [mergeRowMatches_od]
  have hf := filter_eq_of_pairwise_key
    (fun mr : Row => (getCell mr "game_id", getCell mr "team"))
    (getCell r "game_id", getCell r "team") od.rows (odKey_pairwise schedule od hod)
  rw [hf]
  cases hfind : od.rows.find? (fun mr => decide ((getCell mr "game_id", getCell mr "team")
      = (getCell r "game_id", getCell r "team"))) with
  | none =>
    dsimp only [Option.map_none', Option.getD_none]
    rw [mergeRpartNa, hrnk]
    dsimp only [List.map_cons, List.map_nil]
    rw [hrn]
    rfl
  | some mr =>
    dsimp only [Option.map_some', Option.getD_some]
    rw [mergeRpartOf, hrnk]
    dsimp only [List.map_cons, List.map_nil]
    rw [hrn]
    rfl

theorem decide_pair_eq (a b c d : Cell) :
    decide ((a, b) = (c, d)) = (decide (a = c) && decide (b = d)) := by
  rw [← Bool.decide_and]
  refine decide_eq_decide.mpr ?_
  rw [Prod.mk.injEq]

/-- Shared analysis of a successful `_build_player_match_stats` run:
the raw player table cannot have carried an opponent column (the final
projection would have failed on the suffixed merge output), the row
count is preserved, and each output row observes the four identity and
opponent columns exactly as its single-row merge result does. -/
theorem buildPMS_core
    (schedule p od out : Frame)
    (hod : opponentDfOf schedule = .ok od)
    (hok : buildPlayerMatchStats p od = .ok out) :
    "opponent" ∉ p.cols
    ∧ (∀ c ∈ ["game_id", "player", "team"], c ∈ p.cols)
    ∧ out.rows.length = p.rows.length
    ∧ ∀ i, i < p.rows.length → ∀ c ∈ ["game_id", "player", "team", "opponent"],
        getCell (rowAt out i) c
          = getCell (mergeRowOne p od ["game_id", "team"] (rowAt p i)) c := by
  obtain ⟨hmem, merged, s1, s2, s3, s4, hm, h1, h2, h3, h4, hsel⟩ :=
    buildPlayerMatchStats_ok p od out hok
  have hodcols := (opponentDfOf_ok schedule od hod).1
  have hmrows : merged.rows = p.rows.map (mergeRowOne p od ["game_id", "team"]) :=
    mergeLeft_rows_map p od _ merged hm (fun r => mergeRowMatches_od_le_one schedule od hod r)
  have hmlen : merged.rows.length = p.rows.length := by
    rw [hmrows, List.length_map]
  obtain ⟨houtcols, houtlen, hkeepmem, hrowAt⟩ := selectCols_ok s4 _ out hsel
  obtain ⟨hl1, hp1, hmm1, _, _⟩ := addCoercedStat_ok merged "minutes" _ s1 h1
  obtain ⟨hl2, hp2, hmm2, _, _⟩ := addCoercedStat_ok s1 "goals" _ s2 h2
  obtain ⟨hl3, hp3, hmm3, _, _⟩ := addCoercedStat_ok s2 "assists" _ s3 h3
  obtain ⟨hl4, hp4, hmm4, _, _⟩ := addCoercedStat_ok s3 "shots" _ s4 h4
  have hlen1 : s1.rows.length = p.rows.length := by rw [hl1, hmlen]
  have hlen2 : s2.rows.length = p.rows.length := by rw [hl2, hlen1]
  have hlen3 : s3.rows.length = p.rows.length := by rw [hl3, hlen2]
  have hlen4 : s4.rows.length = p.rows.length := by rw [hl4, hlen3]
  have hops4 : "opponent" ∈ s4.cols := hkeepmem "opponent" (by decide)
  have ho3 : "opponent" ∈ s3.cols := by
    rcases (hmm4 "opponent").mp hops4 with h | h
    · exact h
    · exact absurd h (by decide)
  have ho2 : "opponent" ∈ s2.cols := by
    rcases (hmm3 "opponent").mp ho3 with h | h
    · exact h
    · exact absurd h (by decide)
  have ho1 : "opponent" ∈ s1.cols := by
    rcases (hmm2 "opponent").mp ho2 with h | h
    · exact h
    · exact absurd h (by decide)
  have hom : "opponent" ∈ merged.cols := by
    rcases (hmm1 "opponent").mp ho1 with h | h
    · exact h
    · exact absurd h (by decide)
  have hop : "opponent" ∉ p.cols :=
    od_opponent_not_in_p p od hodcols ((mergeLeft_ok p od _ merged hm).1 ▸ hom)
  have hmemmerged : ∀ c, c ∈ p.cols → c ∈ merged.cols := by
    intro c hc
    rw [(mergeLeft_ok p od _ merged hm).1]
    exact List.mem_append.mpr (Or.inl (List.mem_map.mpr
      ⟨c, hc, od_lname_id p od hodcols hop c⟩))
  have hmergedrowAt : ∀ i, i < p.rows.length →
      rowAt merged i = mergeRowOne p od ["game_id", "team"] (rowAt p i) := by
    intro i hi
    rw [rowAt, hmrows]
    exact getD_map _ p.rows i [] [] hi
  have hpass : ∀ c, c ≠ "minutes" → c ≠ "goals" → c ≠ "assists" → c ≠ "shots" →
      c ∈ merged.cols →
      c ∈ ["game_id", "player", "team", "opponent", "minutes", "goals", "assists", "shots"] →
      ∀ i, i < p.rows.length →
        getCell (rowAt out i) c = getCell (rowAt merged i) c := by
    intro c hc1 hc2 hc3 hc4 hcm hck i hi
    have hcs1 : c ∈ s1.cols := (hmm1 c).mpr (Or.inl hcm)
    have hcs2 : c ∈ s2.cols := (hmm2 c).mpr (Or.inl hcs1)
    have hcs3 : c ∈ s3.cols := (hmm3 c).mpr (Or.inl hcs2)
    rw [hrowAt i (by rw [hlen4]; exact hi), getCell_canonRow, if_pos hck,
        hp4 c hc4 i (by rw [hlen3]; exact hi), if_pos hcs3,
        hp3 c hc3 i (by rw [hlen2]; exact hi), if_pos hcs2,
        hp2 c hc2 i (by rw [hlen1]; exact hi), if_pos hcs1,
        hp1 c hc1 i (by rw [hmlen]; exact hi), if_pos hcm]
  refine ⟨hop, hmem, by rw [houtlen, hlen4], ?_⟩
  intro i hi c hc
  have hcmerged : c ∈ merged.cols := by
    rcases List.mem_cons.mp hc with rfl | hc2
    · exact hmemmerged _ (hmem "game_id" (by decide))
    rcases List.mem_cons.mp hc2 with rfl | hc3
    · exact hmemmerged _ (hmem "player" (by decide))
    rcases List.mem_cons.mp hc3 with rfl | hc4
    · exact hmemmerged _ (hmem "team" (by decide))
    rcases List.mem_cons.mp hc4 with rfl | hc5
    · exact hom
    · cases hc5
  have hckeep : c ∈ ["game_id", "player", "team", "opponent",
      "minutes", "goals", "assists", "shots"] := by
    rcases List.mem_cons.mp hc with rfl | hc2
    · decide
    rcases List.mem_cons.mp hc2 with rfl | hc3
    · decide
    rcases List.mem_cons.mp hc3 with rfl | hc4
    · decide
    rcases List.mem_cons.mp hc4 with rfl | hc5
    · decide
    · cases hc5
  have hcne : c ≠ "minutes" ∧ c ≠ "goals" ∧ c ≠ "assists" ∧ c ≠ "shots" := by
    rcases List.mem_cons.mp hc with rfl | hc2
    · exact ⟨by decide, by decide, by decide, by decide⟩
    rcases List.mem_cons.mp hc2 with rfl | hc3
    · exact ⟨by decide, by decide, by decide, by decide⟩
    rcases List.mem_cons.mp hc3 with rfl | hc4
    · exact ⟨by decide, by decide, by decide, by decide⟩
    rcases List.mem_cons.mp hc4 with rfl | hc5
    · exact ⟨by decide, by decide, by decide, by decide⟩
    · cases hc5
  rw [hpass c hcne.1 hcne.2.1 hcne.2.2.1 hcne.2.2.2 hcmerged hckeep i hi,
      hmergedrowAt i hi]

/-! ### Claim C7 -/

/-- C7: the player-match fact table has exactly one row per
player-summary row, in order - the join against the deduplicated
(game_id, team, opponent) lookup neither drops nor duplicates rows -
and each output row keeps its source row's identifier, player and
team. -/
theorem c7_one_row_per_player_row
    (schedule p od out : Frame)
    (hod : opponentDfOf schedule = .ok od)
    (hok : buildPlayerMatchStats p od = .ok out) :
    out.rows.length = p.rows.length
    ∧ ∀ i, i < p.rows.length →
        getCell (rowAt out i) "game_id" = getCell (rowAt p i) "game_id"
        ∧ getCell (rowAt out i) "player" = getCell (rowAt p i) "player"
        ∧ getCell (rowAt out i) "team" = getCell (rowAt p i) "team" := by
  obtain ⟨hop, hmem, hlen, hobs⟩ := buildPMS_core schedule p od out hod hok
  have hodcols := (opponentDfOf_ok schedule od hod).1
  refine ⟨hlen, ?_⟩
  intro i hi
  refine ⟨?_, ?_, ?_⟩
  · rw [hobs i hi "game_id" (by decide),
        getCell_odMerge_left p od hodcols hop _ _ (hmem "game_id" (by decide))]
  · rw [hobs i hi "player" (by decide),
        getCell_odMerge_left p od hodcols hop _ _ (hmem "player" (by decide))]
  · rw [hobs i hi "team" (by decide),
        getCell_odMerge_left p od hodcols hop _ _ (hmem "team" (by decide))]

/-! ### Claim C4 -/

/-- Specification-side opponent lookup for comparison: the opponent
recorded by the first schedule row whose non-missing (game_id, team)
pair equals the given pair, or missing when no such row exists. -/
def schedOpponentFor (schedule : Frame) (g t : Cell) : Cell :=
  match schedule.rows.find? (fun r =>
      (!(isNa (getCell r "game_id")) && !(isNa (getCell r "team")))
        && (decide (getCell r "game_id" = g) && decide (getCell r "team" = t))) with
  | some r => getCell r "opponent"
  | none => .na

theorem od_find_eq_sched (schedule od : Frame)
    (hod : opponentDfOf schedule = .ok od) (g t : Cell) :
    ((od.rows.find? (fun mr => decide ((getCell mr "game_id", getCell mr "team")
        = (g, t)))).map (fun mr => getCell mr "opponent")).getD .na
      = schedOpponentFor schedule g t := by
  rw [(opponentDfOf_ok schedule od hod).2, find_dedupBy, find_filter, find_map]
  have hpred : (schedule.rows.find? (fun r2 =>
      (!(isNa (getCell (canonRow ["game_id", "team", "opponent"] r2) "game_id"))
          && !(isNa (getCell (canonRow ["game_id", "team", "opponent"] r2) "team")))
        && decide ((getCell (canonRow ["game_id", "team", "opponent"] r2) "game_id",
              getCell (canonRow ["game_id", "team", "opponent"] r2) "team") = (g, t))))
      = schedule.rows.find? (fun r =>
        (!(isNa (getCell r "game_id")) && !(isNa (getCell r "team")))
          && (decide (getCell r "game_id" = g) && decide (getCell r "team" = t))) := by
    refine findCongr _ _ _ ?_
    intro r2 _
    show ((!(isNa (getCell r2 "game_id")) && !(isNa (getCell r2 "team")))
        && decide ((getCell r2 "game_id", getCell r2 "team") = (g, t))) = _
    rw [decide_pair_eq]
  rw [show (fun x => (fun r => !isNa (getCell r "game_id") && !isNa (getCell r "team"))
        ((canonRow ["game_id", "team", "opponent"]) x)
      && decide ((getCell ((canonRow ["game_id", "team", "opponent"]) x) "game_id",
            getCell ((canonRow ["game_id", "team", "opponent"]) x) "team") = (g, t)))
    = (fun r2 =>
      (!(isNa (getCell (canonRow ["game_id", "team", "opponent"] r2) "game_id"))
          && !(isNa (getCell (canonRow ["game_id", "team", "opponent"] r2) "team")))
        && decide ((getCell (canonRow ["game_id", "team", "opponent"] r2) "game_id",
              getCell (canonRow ["game_id", "team", "opponent"] r2) "team") = (g, t)))
    from rfl, hpred]
  rw [schedOpponentFor]
  cases hfind : schedule.rows.find? (fun r =>
      (!(isNa (getCell r "game_id")) && !(isNa (getCell r "team")))
        && (decide (getCell r "game_id" = g) && decide (getCell r "team" = t))) with
  | none => rfl
  | some r2 =>
    dsimp only [Option.map_some', Option.getD_some]
    show getCell (canonRow ["game_id", "team", "opponent"] r2) "opponent"
        = getCell r2 "opponent"
    rw [getCell_canonRow, if_pos (by decide)]

/-- C4: each derived player-match row resolves its opponent from the
schedule at the row's (game identifier, team) pair - concretely, the
first schedule row with that non-missing pair - and a pair with no
matching schedule row leaves the opponent missing. -/
theorem c4_opponent_resolution
    (schedule p od out : Frame)
    (hod : opponentDfOf schedule = .ok od)
    (hok : buildPlayerMatchStats p od = .ok out)
    (i : Nat) (hi : i < p.rows.length) :
    getCell (rowAt out i) "opponent"
      = schedOpponentFor schedule (getCell (rowAt p i) "game_id")
          (getCell (rowAt p i) "team") := by
  obtain ⟨hop, hmem, hlen, hobs⟩ := buildPMS_core schedule p od out hod hok
  rw [hobs i hi "opponent" (by decide),
      getCell_odMerge_opponent p od schedule hod hop (rowAt p i),
      od_find_eq_sched schedule od hod _ _]

/-- A prepared-style schedule for the opponent-resolution examples. -/
def c4ExSchedule : Frame :=
  { cols := ["game_id", "team", "opponent", "venue"],
    rows := [
      [("game_id", .str "2024-01-01-ARS-CHE"), ("team", .str "Arsenal"),
       ("opponent", .str "Chelsea"), ("venue", .str "Home")],
      [("game_id", .str "2024-01-01-ARS-CHE"), ("team", .str "Chelsea"),
       ("opponent", .str "Arsenal"), ("venue", .str "Away")]] }

/-- A player summary with one row whose pair resolves and one whose pair
has no schedule entry. -/
def c4ExPlayers : Frame :=
  { cols := ["game_id", "player", "team", "min"],
    rows := [
      [("game_id", .str "2024-01-01-ARS-CHE"), ("player", .str "X"),
       ("team", .str "Arsenal"), ("min", .str "90")],
      [("game_id", .str "2024-01-01-ARS-CHE"), ("player", .str "Q"),
       ("team", .str "Liverpool"), ("min", .str "90")]] }

/-- Witness for C4: player X on Arsenal in the example game gets
opponent Chelsea. -/
theorem c4_opponent_resolution_witness :
    getCell (rowAt (okFrame (buildPlayerMatchStats c4ExPlayers
        (okFrame (opponentDfOf c4ExSchedule)))) 0) "opponent"
      = Cell.str "Chelsea" :=
  (c4_opponent_resolution c4ExSchedule c4ExPlayers
      (okFrame (opponentDfOf c4ExSchedule))
      (okFrame (buildPlayerMatchStats c4ExPlayers (okFrame (opponentDfOf c4ExSchedule))))
      rfl rfl 0 (by decide)).trans rfl

/-- Schedule for the C7 example. -/
def c7ExSchedule : Frame :=
  { cols := ["game_id", "team", "opponent", "venue"],
    rows := [
      [("game_id", .str "G1"), ("team", .str "Arsenal"),
       ("opponent", .str "Chelsea"), ("venue", .str "Home")],
      [("game_id", .str "G1"), ("team", .str "Chelsea"),
       ("opponent", .str "Arsenal"), ("venue", .str "Away")]] }

/-- Player summary for the C7 example. -/
def c7ExPlayers : Frame :=
  { cols := ["game_id", "player", "team", "min"],
    rows := [
      [("game_id", .str "G1"), ("player", .str "X"), ("team", .str "Arsenal"),
       ("min", .str "90")],
      [("game_id", .str "G1"), ("player", .str "Y"), ("team", .str "Chelsea"),
       ("min", .str "45")],
      [("game_id", .str "G1"), ("player", .str "Z"), ("team", .str "Arsenal"),
       ("min", .str "12")]] }

/-- Witness for C7: three player rows give exactly three fact rows. -/
theorem c7_one_row_per_player_row_witness :
    (okFrame (buildPlayerMatchStats c7ExPlayers
        (okFrame (opponentDfOf c7ExSchedule)))).rows.length
      = c7ExPlayers.rows.length :=
  (c7_one_row_per_player_row c7ExSchedule c7ExPlayers
      (okFrame (opponentDfOf c7ExSchedule))
      (okFrame (buildPlayerMatchStats c7ExPlayers (okFrame (opponentDfOf c7ExSchedule))))
      rfl rfl).1

/-! ### Claim C5 -/

theorem buildMatches_error_of_missing (schedule : Frame) (fm : Option Frame) (c : String)
    (hc : c ∈ requiredMatchCols) (hmiss : c ∉ schedule.cols) :
    buildMatches schedule fm = .error "Schedule table missing columns" := by
  rw [buildMatches.eq_def, if_neg]
  intro hall
  exact hmiss (by simpa using List.all_eq_true.mp hall c hc)

/-- C5: a raw schedule lacking both game-identifier columns, or lacking
any of team/opponent/venue/date/league/season, makes the whole run
produce an error - the pipeline yields its output record (the five
tables that `main` writes, all at once, only after every build step
succeeded) in no such case, so no partial write can occur. -/
theorem c5_structural_failure_aborts (s p : Frame)
    (h : ("game" ∉ s.cols ∧ "game_id" ∉ s.cols)
      ∨ ∃ c ∈ ["team", "opponent", "venue", "date", "league", "season"], c ∉ s.cols) :
    ∃ e, runPipeline s p = .error e := by
  rw [runPipeline]
  by_cases hc : "game" ∈ s.cols ∧ "game" ∉ p.cols
  · rw [if_pos hc]
    exact ⟨_, rfl⟩
  · rw [if_neg hc]
    simp only [Bind.bind, Except.bind]
    cases hprep : prepareSchedule s with
    | error e => exact ⟨e, rfl⟩
    | ok sp =>
      rcases h with ⟨h1, h2⟩ | ⟨c, hcl, hmiss⟩
      · rw [prepareSchedule, prepareGameTable_error s _ _ h1 h2] at hprep
        cases hprep
      · have hcspne : c ≠ "game" ∧ c ≠ "game_id" := by
          rcases List.mem_cons.mp hcl with rfl | h2
          · exact ⟨by decide, by decide⟩
          rcases List.mem_cons.mp h2 with rfl | h3
          · exact ⟨by decide, by decide⟩
          rcases List.mem_cons.mp h3 with rfl | h4
          · exact ⟨by decide, by decide⟩
          rcases List.mem_cons.mp h4 with rfl | h5
          · exact ⟨by decide, by decide⟩
          rcases List.mem_cons.mp h5 with rfl | h6
          · exact ⟨by decide, by decide⟩
          rcases List.mem_cons.mp h6 with rfl | h7
          · exact ⟨by decide, by decide⟩
          · cases h7
        have hcreq : c ∈ requiredMatchCols := by
          rcases List.mem_cons.mp hcl with rfl | h2
          · decide
          rcases List.mem_cons.mp h2 with rfl | h3
          · decide
          rcases List.mem_cons.mp h3 with rfl | h4
          · decide
          rcases List.mem_cons.mp h4 with rfl | h5
          · decide
          rcases List.mem_cons.mp h5 with rfl | h6
          · decide
          rcases List.mem_cons.mp h6 with rfl | h7
          · decide
          · cases h7
        have hspmiss : c ∉ sp.cols := by
          intro hmem
          exact hmiss ((prepare_mem_cols s _ _ sp hprep c hcspne.1 hcspne.2).mp hmem)
        cases hpp : preparePlayerSummary p with
        | error e => exact ⟨e, rfl⟩
        | ok pp =>
          dsimp only
          rw [buildMatches_error_of_missing sp (mkFbrefMap p) c hcreq hspmiss]
          exact ⟨_, rfl⟩

/-- Schedule missing the venue column for the C5 witness. -/
def c5ExSchedule : Frame :=
  { cols := ["game_id", "team", "opponent", "date", "league", "season"],
    rows := [] }

/-- Empty player summary for the C5 witness. -/
def c5ExPlayers : Frame :=
  { cols := ["game_id", "player", "team"], rows := [] }

/-- Witness for C5: a schedule without a venue column aborts the run. -/
theorem c5_structural_failure_aborts_witness :
    ∃ e, runPipeline c5ExSchedule c5ExPlayers = .error e :=
  c5_structural_failure_aborts c5ExSchedule c5ExPlayers
    (Or.inr ⟨"venue", by decide, by decide⟩)

/-! ### Claim C6 -/

theorem firstExistingColumn_some (f : Frame) (cands : List String) (c : String)
    (h : firstExistingColumn f cands = some c) : c ∈ cands ∧ c ∈ f.cols := by
  induction cands with
  | nil => cases h
  | cons x xs ih =>
    simp only [firstExistingColumn] at h
    by_cases hx : x ∈ f.cols
    · rw [if_pos hx] at h
      cases h
      exact ⟨List.mem_cons_self _ _, hx⟩
    · rw [if_neg hx] at h
      rcases ih h with ⟨h1, h2⟩
      exact ⟨List.mem_cons_of_mem _ h1, h2⟩

/-- The schedule with the default result column, as
`_build_team_match_stats` prepares it before the goal coercions. -/
def resultDefaulted (schedule : Frame) : Frame :=
  if "result" ∈ schedule.cols then schedule
  else setColVals schedule "result" (schedule.rows.map (fun _ => Cell.na))

theorem buildTeamMatchStats_ok (schedule out : Frame)
    (h : buildTeamMatchStats schedule = .ok out) :
    (∀ c ∈ requiredTeamStatCols, c ∈ schedule.cols)
    ∧ ∃ s2 s3,
        addCoercedStat (resultDefaulted schedule) "goals_for"
          (firstExistingColumn schedule ["gf", "goals_for", "goals"]) = .ok s2
        ∧ addCoercedStat s2 "goals_against"
            (firstExistingColumn schedule ["ga", "goals_against", "goals_allowed"]) = .ok s3
        ∧ selectCols s3 ["game_id", "team", "opponent", "venue", "result",
            "goals_for", "goals_against"] = .ok out := by
  rw [buildTeamMatchStats] at h
  by_cases hg : (requiredTeamStatCols.all (fun c => decide (c ∈ schedule.cols))) = true
  · rw [if_pos hg] at h
    have hmem : ∀ c ∈ requiredTeamStatCols, c ∈ schedule.cols := by
      intro c hc
      simpa using List.all_eq_true.mp hg c hc
    simp only [Bind.bind, Except.bind] at h
    cases h2 : addCoercedStat
        (if "result" ∈ schedule.cols then schedule
         else setColVals schedule "result" (schedule.rows.map (fun _ => Cell.na)))
        "goals_for" (firstExistingColumn schedule ["gf", "goals_for", "goals"]) with
    | error e =>
      rw [h2] at h
      cases h
    | ok s2 =>
      rw [h2] at h
      dsimp only at h
      cases h3 : addCoercedStat s2 "goals_against"
          (firstExistingColumn schedule ["ga", "goals_against", "goals_allowed"]) with
      | error e =>
        rw [h3] at h
        cases h
      | ok s3 =>
        rw [h3] at h
        dsimp only at h
        exact ⟨hmem, s2, s3, by unfold resultDefaulted; exact h2, h3, h⟩
  · rw [if_neg hg] at h
    cases h

theorem resultDefaulted_length (schedule : Frame) :
    (resultDefaulted schedule).rows.length = schedule.rows.length := by
  rw [resultDefaulted]
  by_cases hr : "result" ∈ schedule.cols
  · rw [if_pos hr]
  · rw [if_neg hr]
    exact setColVals_length _ _ _ (by simp)

theorem mem_resultDefaulted_cols (schedule : Frame) (c : String) :
    c ∈ (resultDefaulted schedule).cols ↔ c ∈ schedule.cols ∨ c = "result" := by
  rw [resultDefaulted]
  by_cases hr : "result" ∈ schedule.cols
  · rw [if_pos hr]
    constructor
    · exact Or.inl
    · rintro (h | rfl)
      · exact h
      · exact hr
  · rw [if_neg hr]
    exact mem_setColVals_cols _ _ _ c

theorem getCell_resultDefaulted_other (schedule : Frame) (c : String)
    (hc : c ≠ "result") (hmem : c ∈ schedule.cols) (i : Nat)
    (hi : i < schedule.rows.length) :
    getCell (rowAt (resultDefaulted schedule) i) c = getCell (rowAt schedule i) c := by
  rw [resultDefaulted]
  by_cases hr : "result" ∈ schedule.cols
  · rw [if_pos hr]
  · rw [if_neg hr, getCell_setColVals schedule "result" _ c i hi (by simp),
        if_neg hc, if_pos hmem]

theorem getCell_resultDefaulted_result (schedule : Frame) (i : Nat)
    (hi : i < schedule.rows.length) :
    getCell (rowAt (resultDefaulted schedule) i) "result"
      = if "result" ∈ schedule.cols then getCell (rowAt schedule i) "result" else .na := by
  rw [resultDefaulted]
  by_cases hr : "result" ∈ schedule.cols
  · rw [if_pos hr, if_pos hr]
  · rw [if_neg hr, if_neg hr, getCell_setColVals schedule "result" _ "result" i hi (by simp),
        if_pos rfl, getD_map (fun _ => Cell.na) schedule.rows i .na [] hi]

/-- C6: the team-match fact table has exactly one row per schedule row,
carries game_id/team/opponent/venue (and result when present, `NA`
when absent) through unchanged, and fills goals-for/goals-against from
the first present alias column via the nullable-integer coercion - or
with `NA` in every row, never zero, when no alias column exists. -/
theorem c6_team_match_stats (schedule out : Frame)
    (hok : buildTeamMatchStats schedule = .ok out) :
    out.rows.length = schedule.rows.length
    ∧ (∀ i, i < schedule.rows.length →
        getCell (rowAt out i) "game_id" = getCell (rowAt schedule i) "game_id"
        ∧ getCell (rowAt out i) "team" = getCell (rowAt schedule i) "team"
        ∧ getCell (rowAt out i) "opponent" = getCell (rowAt schedule i) "opponent"
        ∧ getCell (rowAt out i) "venue" = getCell (rowAt schedule i) "venue"
        ∧ getCell (rowAt out i) "result"
            = (if "result" ∈ schedule.cols then getCell (rowAt schedule i) "result" else .na))
    ∧ (firstExistingColumn schedule ["gf", "goals_for", "goals"] = none →
        ∀ i, i < schedule.rows.length → getCell (rowAt out i) "goals_for" = .na)
    ∧ (∀ c, firstExistingColumn schedule ["gf", "goals_for", "goals"] = some c →
        ∀ i, i < schedule.rows.length →
          coerceCell (getCell (rowAt schedule i) c) = .ok (getCell (rowAt out i) "goals_for"))
    ∧ (firstExistingColumn schedule ["ga", "goals_against", "goals_allowed"] = none →
        ∀ i, i < schedule.rows.length → getCell (rowAt out i) "goals_against" = .na)
    ∧ (∀ c, firstExistingColumn schedule ["ga", "goals_against", "goals_allowed"] = some c →
        ∀ i, i < schedule.rows.length →
          coerceCell (getCell (rowAt schedule i) c)
            = .ok (getCell (rowAt out i) "goals_against")) := by
  obtain ⟨hmem, s2, s3, h2, h3, hsel⟩ := buildTeamMatchStats_ok schedule out hok
  obtain ⟨houtcols, houtlen, hkeepmem, hrowAt⟩ := selectCols_ok s3 _ out hsel
  obtain ⟨hl2, hp2, hmm2, hnone2, hsome2⟩ := addCoercedStat_ok _ "goals_for" _ s2 h2
  obtain ⟨hl3, hp3, hmm3, hnone3, hsome3⟩ := addCoercedStat_ok s2 "goals_against" _ s3 h3
  have hlen2 : s2.rows.length = schedule.rows.length := by
    rw [hl2, resultDefaulted_length]
  have hlen3 : s3.rows.length = schedule.rows.length := by rw [hl3, hlen2]
  have hpass : ∀ c, c ≠ "goals_for" → c ≠ "goals_against" →
      c ∈ (resultDefaulted schedule).cols →
      c ∈ ["game_id", "team", "opponent", "venue", "result", "goals_for", "goals_against"] →
      ∀ i, i < schedule.rows.length →
        getCell (rowAt out i) c = getCell (rowAt (resultDefaulted schedule) i) c := by
    intro c hc1 hc2 hcm hck i hi
    have hcs2 : c ∈ s2.cols := (hmm2 c).mpr (Or.inl hcm)
    rw [hrowAt i (by rw [hlen3]; exact hi), getCell_canonRow, if_pos hck,
        hp3 c hc2 i (by rw [hlen2]; exact hi), if_pos hcs2,
        hp2 c hc1 i (by rw [resultDefaulted_length]; exact hi), if_pos hcm]
  have hpass2 : ∀ c, c ≠ "goals_for" → c ≠ "goals_against" → c ≠ "result" →
      c ∈ schedule.cols →
      c ∈ ["game_id", "team", "opponent", "venue", "result", "goals_for", "goals_against"] →
      ∀ i, i < schedule.rows.length →
        getCell (rowAt out i) c = getCell (rowAt schedule i) c := by
    intro c hc1 hc2 hc3 hcm hck i hi
    rw [hpass c hc1 hc2 ((mem_resultDefaulted_cols schedule c).mpr (Or.inl hcm)) hck i hi,
        getCell_resultDefaulted_other schedule c hc3 hcm i hi]
  refine ⟨by rw [houtlen, hlen3], ?_, ?_, ?_, ?_, ?_⟩
  · intro i hi
    refine ⟨?_, ?_, ?_, ?_, ?_⟩
    · exact hpass2 "game_id" (by decide) (by decide) (by decide)
        (hmem "game_id" (by decide)) (by decide) i hi
    · exact hpass2 "team" (by decide) (by decide) (by decide)
        (hmem "team" (by decide)) (by decide) i hi
    · exact hpass2 "opponent" (by decide) (by decide) (by decide)
        (hmem "opponent" (by decide)) (by decide) i hi
    · exact hpass2 "venue" (by decide) (by decide) (by decide)
        (hmem "venue" (by decide)) (by decide) i hi
    · rw [hpass "result" (by decide) (by decide)
          ((mem_resultDefaulted_cols schedule "result").mpr (Or.inr rfl)) (by decide) i hi,
          getCell_resultDefaulted_result schedule i hi]
  · intro hnone i hi
    have h1 : getCell (rowAt s2 i) "goals_for" = .na :=
      hnone2 hnone i (by rw [resultDefaulted_length]; exact hi)
    have hgfs2 : "goals_for" ∈ s2.cols := (hmm2 "goals_for").mpr (Or.inr rfl)
    rw [hrowAt i (by rw [hlen3]; exact hi), getCell_canonRow, if_pos (by decide),
        hp3 "goals_for" (by decide) i (by rw [hlen2]; exact hi), if_pos hgfs2, h1]
  · intro c hc i hi
    have hcc := firstExistingColumn_some schedule _ c hc
    have hcne : c ≠ "result" ∧ c ≠ "goals_against" := by
      rcases List.mem_cons.mp hcc.1 with rfl | hx
      · exact ⟨by decide, by decide⟩
      rcases List.mem_cons.mp hx with rfl | hx2
      · exact ⟨by decide, by decide⟩
      rcases List.mem_cons.mp hx2 with rfl | hx3
      · exact ⟨by decide, by decide⟩
      · cases hx3
    have hval := hsome2 c hc i (by rw [resultDefaulted_length]; exact hi)
    rw [getCell_resultDefaulted_other schedule c hcne.1 hcc.2 i hi] at hval
    have hgfs2 : "goals_for" ∈ s2.cols := (hmm2 "goals_for").mpr (Or.inr rfl)
    rw [hrowAt i (by rw [hlen3]; exact hi), getCell_canonRow, if_pos (by decide),
        hp3 "goals_for" (by decide) i (by rw [hlen2]; exact hi), if_pos hgfs2]
    exact hval
  · intro hnone i hi
    have h1 : getCell (rowAt s3 i) "goals_against" = .na :=
      hnone3 hnone i (by rw [hlen2]; exact hi)
    rw [hrowAt i (by rw [hlen3]; exact hi), getCell_canonRow, if_pos (by decide), h1]
  · intro c hc i hi
    have hcc := firstExistingColumn_some schedule _ c hc
    have hcne : c ≠ "result" ∧ c ≠ "goals_for" := by
      rcases List.mem_cons.mp hcc.1 with rfl | hx
      · exact ⟨by decide, by decide⟩
      rcases List.mem_cons.mp hx with rfl | hx2
      · exact ⟨by decide, by decide⟩
      rcases List.mem_cons.mp hx2 with rfl | hx3
      · exact ⟨by decide, by decide⟩
      · cases hx3
    have hval := hsome3 c hc i (by rw [hlen2]; exact hi)
    have hcs2 : c ∈ s2.cols := (hmm2 c).mpr (Or.inl
      ((mem_resultDefaulted_cols schedule c).mpr (Or.inl hcc.2)))
    rw [hp2 c hcne.2 i (by rw [resultDefaulted_length]; exact hi),
        if_pos ((mem_resultDefaulted_cols schedule c).mpr (Or.inl hcc.2)),
        getCell_resultDefaulted_other schedule c hcne.1 hcc.2 i hi] at hval
    rw [hrowAt i (by rw [hlen3]; exact hi), getCell_canonRow, if_pos (by decide)]
    exact hval

/-- Schedule for the C6 witness: gf/ga aliases present, no result
column. -/
def c6ExSchedule : Frame :=
  { cols := ["game_id", "team", "opponent", "venue", "gf", "ga"],
    rows := [
      [("game_id", .str "G1"), ("team", .str "Arsenal"), ("opponent", .str "Chelsea"),
       ("venue", .str "Home"), ("gf", .str "2"), ("ga", .str "1")],
      [("game_id", .str "G1"), ("team", .str "Chelsea"), ("opponent", .str "Arsenal"),
       ("venue", .str "Away"), ("gf", .str "1"), ("ga", .str "2")]] }

/-- Witness for C6: two schedule rows give two fact rows. -/
theorem c6_team_match_stats_witness :
    (okFrame (buildTeamMatchStats c6ExSchedule)).rows.length = c6ExSchedule.rows.length :=
  (c6_team_match_stats c6ExSchedule (okFrame (buildTeamMatchStats c6ExSchedule)) rfl).1

/-! ### Claim C8 -/

/-- C8: team-name canonicalization is exact-match substitution against
the fixed fixup table - names absent from the table pass through
unchanged - and the preparation step applies it pointwise to the
schedule's team and opponent columns and to the player summary's team
column before any grouping or joining runs on the prepared frames. -/
theorem c8_team_name_canonicalization :
    fixCell (.str "Nott\x27ham Forest") = .str "Nottingham Forest"
    ∧ fixCell (.str "Arsenal") = .str "Arsenal"
    ∧ (∀ s : String, teamNameFixups.lookup s = none → fixCell (.str s) = .str s)
    ∧ (∀ f s2 : Frame, prepareSchedule f = .ok s2 → "team" ∈ f.cols →
        "opponent" ∈ f.cols → ∀ i, i < f.rows.length →
          getCell (rowAt s2 i) "team" = fixCell (getCell (rowAt f i) "team")
          ∧ getCell (rowAt s2 i) "opponent" = fixCell (getCell (rowAt f i) "opponent"))
    ∧ (∀ f s2 : Frame, preparePlayerSummary f = .ok s2 → "team" ∈ f.cols →
        ∀ i, i < f.rows.length →
          getCell (rowAt s2 i) "team" = fixCell (getCell (rowAt f i) "team")) := by
  refine ⟨rfl, rfl, ?_, ?_, ?_⟩
  · intro s h
    simp only [fixCell, applyFixupsStr, h]
  · intro f s2 hp hteam hopp i hi
    constructor
    · exact prepare_getCell_fixed f _ _ s2 hp (by decide) "team" (by decide)
        (by decide) (by decide) hteam i hi
    · exact prepare_getCell_fixed f _ _ s2 hp (by decide) "opponent" (by decide)
        (by decide) (by decide) hopp i hi
  · intro f s2 hp hteam i hi
    exact prepare_getCell_fixed f _ _ s2 hp (by decide) "team" (by decide)
      (by decide) (by decide) hteam i hi

/-- Raw schedule for the C8 witness, with an abbreviated club name. -/
def c8ExSchedule : Frame :=
  { cols := ["game", "team", "opponent"],
    rows := [[("game", .str "G1"), ("team", .str "Nott\x27ham Forest"),
              ("opponent", .str "Arsenal")]] }

/-- Witness for C8: the prepared schedule row carries the canonicalized
team name. -/
theorem c8_team_name_canonicalization_witness :
    getCell (rowAt (okFrame (prepareSchedule c8ExSchedule)) 0) "team"
      = fixCell (getCell (rowAt c8ExSchedule 0) "team") :=
  (c8_team_name_canonicalization.2.2.2.1 c8ExSchedule
      (okFrame (prepareSchedule c8ExSchedule)) rfl (by decide) (by decide)
      0 (by decide)).1

/-! ### Claim C9 -/

theorem buildMatches_some_cases (schedule mp m : Frame)
    (h : buildMatches schedule (some mp) = .ok m) :
    (mp.rows.isEmpty = true ∧ m = matchBase schedule)
    ∨ (mergeLeft (matchBase schedule) mp ["game_id"] = .ok m) := by
  rw [buildMatches.eq_def] at h
  by_cases hg : requiredMatchCols.all (fun c => decide (c ∈ schedule.cols)) = true
  · rw [if_pos hg] at h
    dsimp only at h
    by_cases he : mp.rows.isEmpty = true
    · rw [if_pos he] at h
      cases h
      exact Or.inl ⟨he, rfl⟩
    · rw [if_neg he] at h
      exact Or.inr h
  · rw [if_neg hg] at h
    cases h

theorem dedupBy_eq_nil {α κ : Type} [DecidableEq κ] (k : α → κ) (l : List α)
    (h : dedupBy k l = []) : l = [] := by
  cases l with
  | nil => rfl
  | cons x xs =>
    rw [dedupBy, dedupByAux] at h
    rw [if_neg (by simp)] at h
    cases h

theorem getCell_mkMatchRow_fbref (f : Frame) (g : Cell) :
    getCell (mkMatchRow f g) "fbref_match_id" = .na := rfl

/-- C9: when the raw player summary carries both the provider token and
the canonical identifier, every derived match row's external id is the
`game_id` of the first player-summary row whose non-missing token
equals the match's game identifier (first-seen-wins, at most one id per
identifier), missing when no such row exists - and the attachment
neither drops nor duplicates match rows. -/
theorem c9_external_id_attachment
    (p sp m mp : Frame)
    (hmap : mkFbrefMap p = some mp)
    (hok : buildMatches sp (mkFbrefMap p) = .ok m) :
    m.rows.length = (matchBase sp).rows.length
    ∧ ∀ r ∈ m.rows, getCell r "fbref_match_id"
        = ((p.rows.find? (fun pr =>
            (!(isNa (getCell pr "game")) && !(isNa (getCell pr "game_id")))
              && decide (getCell pr "game" = getCell r "game_id"))).map
            (fun pr => getCell pr "game_id")).getD .na := by
  have hmpe := mkFbrefMap_some_eq p mp hmap
  subst hmpe
  rw [hmap] at hok
  rcases buildMatches_some_cases sp (mapFrameOf p) m hok with ⟨hemp, hbase⟩ | hmerge
  · -- the mapping is empty: the merge is skipped and no token resolves
    have hpairs : fbrefPairs p = [] := by
      have : (mapFrameOf p).rows = [] := List.isEmpty_iff.mp hemp
      rw [mapFrameOf] at this
      exact List.map_eq_nil_iff.mp this
    have hfilter : ((p.rows.map (fun r => (getCell r "game", getCell r "game_id"))).filter
        (fun q => !(isNa q.1) && !(isNa q.2))) = [] := by
      rw [fbrefPairs] at hpairs
      exact dedupBy_eq_nil _ _ (dedupBy_eq_nil _ _ hpairs)
    subst hbase
    refine ⟨rfl, ?_⟩
    intro r hr
    rcases List.mem_map.mp hr with ⟨g, hg, rfl⟩
    rw [getCell_mkMatchRow_fbref]
    have hnone : p.rows.find? (fun pr =>
        (!(isNa (getCell pr "game")) && !(isNa (getCell pr "game_id")))
          && decide (getCell pr "game"
              = getCell (mkMatchRow (dateConverted sp) g) "game_id")) = none := by
      rw [List.find?_eq_none]
      intro pr hpr
      have hq : (!(isNa (getCell pr "game")) && !(isNa (getCell pr "game_id"))) = false := by
        have := List.filter_eq_nil_iff.mp hfilter
          (getCell pr "game", getCell pr "game_id")
          (List.mem_map.mpr ⟨pr, hpr, rfl⟩)
        simpa using this
      simp [hq]
    rw [hnone]
    rfl
  · have hrows := mapMerge_rows sp p m hmerge
    constructor
    · rw [hrows, List.length_map]
    · intro r hr
      rw [hrows] at hr
      rcases List.mem_map.mp hr with ⟨rb, hrb, rfl⟩
      rw [getCell_mapMerge_fbref sp p rb,
          getCell_mapMerge_left sp p rb "game_id" (by decide),
          fbrefPairs_find, find_filter, find_map, Option.map_map]
      rfl

/-- Prepared-style schedule with one game for the C9 witness. -/
def c9ExSchedule : Frame :=
  { cols := ["game_id", "team", "opponent", "venue", "date", "league", "season"],
    rows := [
      [("game_id", .str "G1"), ("team", .str "Arsenal"), ("opponent", .str "Chelsea"),
       ("venue", .str "Home"), ("date", .str "2024-01-01"), ("league", .str "EPL"),
       ("season", .str "2024")]] }

/-- Player summary with two conflicting external ids for one token:
first-seen must win. -/
def c9ExPlayers : Frame :=
  { cols := ["game", "game_id", "player", "team"],
    rows := [
      [("game", .str "G1"), ("game_id", .str "F1"), ("player", .str "X"),
       ("team", .str "Arsenal")],
      [("game", .str "G1"), ("game_id", .str "F1b"), ("player", .str "Y"),
       ("team", .str "Chelsea")]] }

/-- Witness for C9: the first-seen external id F1 is attached. -/
theorem c9_external_id_attachment_witness :
    getCell (rowAt (okFrame (buildMatches c9ExSchedule (mkFbrefMap c9ExPlayers))) 0)
      "fbref_match_id" = Cell.str "F1" :=
  ((c9_external_id_attachment c9ExPlayers c9ExSchedule
      (okFrame (buildMatches c9ExSchedule (mkFbrefMap c9ExPlayers)))
      (mapFrameOf c9ExPlayers) rfl rfl).2
    (rowAt (okFrame (buildMatches c9ExSchedule (mkFbrefMap c9ExPlayers))) 0)
    (by decide)).trans rfl

/-! ### Claim C10 -/

/-- C10: both preparation steps prefer the `game` column - when `game`
and `game_id` both exist, the original `game_id` column is discarded
(one `game_id` column remains) and the `game` values become the game
identifier; when only one of the two exists, that column's values are
used. -/
theorem c10_game_column_preference (f sSched sPlay : Frame) :
    (prepareSchedule f = .ok sSched →
      ("game" ∈ f.cols →
        sSched.cols.count "game_id" = 1
        ∧ ∀ i, i < f.rows.length →
            getCell (rowAt sSched i) "game_id" = getCell (rowAt f i) "game")
      ∧ ("game" ∉ f.cols → ∀ i, i < f.rows.length →
            getCell (rowAt sSched i) "game_id" = getCell (rowAt f i) "game_id"))
    ∧ (preparePlayerSummary f = .ok sPlay →
      ("game" ∈ f.cols →
        sPlay.cols.count "game_id" = 1
        ∧ ∀ i, i < f.rows.length →
            getCell (rowAt sPlay i) "game_id" = getCell (rowAt f i) "game")
      ∧ ("game" ∉ f.cols → ∀ i, i < f.rows.length →
            getCell (rowAt sPlay i) "game_id" = getCell (rowAt f i) "game_id")) := by
  constructor
  · intro hp
    constructor
    · intro hg
      refine ⟨prepare_gameId_count f _ _ sSched hp, ?_⟩
      intro i hi
      rw [prepare_getCell_gameId f _ _ sSched hp (by decide) (by decide) i hi, if_pos hg]
    · intro hg i hi
      rw [prepare_getCell_gameId f _ _ sSched hp (by decide) (by decide) i hi, if_neg hg]
  · intro hp
    constructor
    · intro hg
      refine ⟨prepare_gameId_count f _ _ sPlay hp, ?_⟩
      intro i hi
      rw [prepare_getCell_gameId f _ _ sPlay hp (by decide) (by decide) i hi, if_pos hg]
    · intro hg i hi
      rw [prepare_getCell_gameId f _ _ sPlay hp (by decide) (by decide) i hi, if_neg hg]

/-- A raw table carrying both a `game` and a `game_id` column with
different values. -/
def c10ExTable : Frame :=
  { cols := ["game", "game_id", "team", "opponent"],
    rows := [[("game", .str "G1"), ("game_id", .str "OLD"),
              ("team", .str "Arsenal"), ("opponent", .str "Chelsea")]] }

/-- Witness for C10: with both columns present, the prepared game
identifier is the `game` value, not the original `game_id` value. -/
theorem c10_game_column_preference_witness :
    getCell (rowAt (okFrame (prepareSchedule c10ExTable)) 0) "game_id"
      = getCell (rowAt c10ExTable 0) "game" :=
  (((c10_game_column_preference c10ExTable (okFrame (prepareSchedule c10ExTable))
      (okFrame (preparePlayerSummary c10ExTable))).1 rfl).1 (by decide)).2 0 (by decide)

end Fbsts
